import Mathlib

/-!
Verification development for the demand-response (DSM/DSI/DR) components of
the `DR_modeling_oemof` repository.

The repository builds Pyomo constraint blocks for four academic
demand-response formulations (DIW, IER, DLR, TUD).  Every block's `_create`
method emits, for each component `g` and each timestep `t`, (in)equalities
between Pyomo expressions over time-indexed decision variables.  We embed
that expression language shallowly: `Expr V` is the tree of arithmetic
operations the Python code performs on variables and parameters (constants,
variables, addition, subtraction, multiplication of two expressions, and
division by a parameter), a constraint is a pair of expressions joined by
`=` or `<=`, and each `..._rule` function of the source becomes a Lean
function producing the list of constraints the corresponding `BuildAction`
adds.  Timesteps are `0, 1, ..., T-1`, mirroring `m.TIMESTEPS` (where the
Python `m.TIMESTEPS[1]` is `0` and `m.TIMESTEPS[-1]` is `T-1`).  Python
`range(a, b)` becomes `pyRange a b`; conditions of the shape
`t <= m.TIMESTEPS[-1] - x` (evaluated over the integers in Python) are
rendered as `t + x ≤ T - 1`, which agrees with the source for every
reachable case.  Fallible `_create` methods (those that can raise `KeyError`
on a malformed variable index, `ValueError` from `range` with step zero, or
`IndexError` on an empty interval list) return `Except String _`.
-/

namespace DRoemof

/-- Pyomo variable domains used (or offered) for the decision variables of
the constraint blocks; `within=NonNegativeReals` resp. `within=Reals` in the
source.  The integer domains are included so that continuity of the declared
variables is a meaningful check. -/
inductive Dom where
  | nonNegativeReals : Dom
  | reals : Dom
  | integers : Dom
  | binary : Dom
deriving DecidableEq

/-- A domain is continuous when it is not an integer or binary domain. -/
def Dom.isContinuous : Dom → Bool
  | Dom.integers => false
  | Dom.binary => false
  | _ => true

/-- Membership of a rational value in a Pyomo domain. -/
def Dom.memQ (q : ℚ) : Dom → Prop
  | Dom.nonNegativeReals => 0 ≤ q
  | Dom.reals => True
  | Dom.integers => ∃ n : ℤ, q = (n : ℚ)
  | Dom.binary => q = 0 ∨ q = 1

/-- A variable declaration of a constraint block: the Pyomo `Var` name and
its `within=` domain. -/
structure VarDecl where
  name : String
  dom : Dom
deriving DecidableEq

/-- Expressions over decision variables of type `V`, shallowly embedding the
arithmetic the source performs on Pyomo variables: rational constants
(parameters), variables, `+`, `-`, `*`, and division by a parameter. -/
inductive Expr (V : Type) where
  | const : ℚ → Expr V
  | var : V → Expr V
  | add : Expr V → Expr V → Expr V
  | sub : Expr V → Expr V → Expr V
  | mul : Expr V → Expr V → Expr V
  | div : Expr V → ℚ → Expr V
deriving DecidableEq

/-- Evaluation of an expression under an assignment of the variables. -/
def Expr.eval {V : Type} (σ : V → ℚ) : Expr V → ℚ
  | Expr.const q => q
  | Expr.var v => σ v
  | Expr.add a b => a.eval σ + b.eval σ
  | Expr.sub a b => a.eval σ - b.eval σ
  | Expr.mul a b => a.eval σ * b.eval σ
  | Expr.div a q => a.eval σ / q

/-- Syntactic degree of an expression in the decision variables: constants
have degree 0, variables degree 1, products add degrees.  An expression is
affine exactly when its degree is at most 1. -/
def Expr.deg {V : Type} : Expr V → ℕ
  | Expr.const _ => 0
  | Expr.var _ => 1
  | Expr.add a b => max a.deg b.deg
  | Expr.sub a b => max a.deg b.deg
  | Expr.mul a b => a.deg + b.deg
  | Expr.div a _ => a.deg

/-- Relations occurring in the generated constraints (`==` and `<=`). -/
inductive Rel where
  | eq : Rel
  | le : Rel
deriving DecidableEq

/-- A single generated constraint: `lhs rel rhs`. -/
structure Constr (V : Type) where
  lhs : Expr V
  rel : Rel
  rhs : Expr V
deriving DecidableEq

/-- A constraint holds under an assignment when the evaluated relation does. -/
def Constr.holds {V : Type} (σ : V → ℚ) : Constr V → Prop
  | Constr.mk l Rel.eq r => l.eval σ = r.eval σ
  | Constr.mk l Rel.le r => l.eval σ ≤ r.eval σ

instance {V : Type} (σ : V → ℚ) : (c : Constr V) → Decidable (c.holds σ)
  | Constr.mk l Rel.eq r => inferInstanceAs (Decidable (l.eval σ = r.eval σ))
  | Constr.mk l Rel.le r => inferInstanceAs (Decidable (l.eval σ ≤ r.eval σ))

/-- The sum of a list of expressions, as built by Python `sum(...)`. -/
def sumExpr {V : Type} (l : List (Expr V)) : Expr V :=
  l.foldr Expr.add (Expr.const 0)

/-- Python `range(a, b)` as a list of naturals. -/
def pyRange (a b : ℕ) : List ℕ :=
  (List.range (b - a)).map (fun i => a + i)

/-- Python `range(a, b, step)` for positive `step`. -/
def pyRangeStep (a b step : ℕ) : List ℕ :=
  (List.range ((b - a + step - 1) / step)).map (fun i => a + step * i)

/-- Python `max` over a list of rationals (callers only use it on nonempty
lists, where the default value is irrelevant). -/
def pymaxQ (l : List ℚ) : ℚ :=
  l.foldr max (l.headD 0)

/-- Python `max(f[t] for t in m.TIMESTEPS)`. -/
def seqMax (f : ℕ → ℚ) (T : ℕ) : ℚ :=
  pymaxQ ((List.range T).map f)

theorem mem_pyRange {a b t : ℕ} : t ∈ pyRange a b ↔ a ≤ t ∧ t < b := by
  simp only [pyRange, List.mem_map, List.mem_range]
  constructor
  · rintro ⟨i, hi, rfl⟩
    omega
  · rintro ⟨h1, h2⟩
    exact ⟨t - a, by omega, by omega⟩

theorem eval_sumExpr {V : Type} (σ : V → ℚ) (l : List (Expr V)) :
    (sumExpr l).eval σ = (l.map (fun e => e.eval σ)).sum := by
  induction l with
  | nil => simp [sumExpr, Expr.eval]
  | cons e l ih =>
      simp only [sumExpr, List.foldr_cons, List.map_cons, List.sum_cons] at *
      simp [Expr.eval, ih]

theorem deg_sumExpr_le {V : Type} (l : List (Expr V))
    (h : ∀ e ∈ l, e.deg ≤ 1) : (sumExpr l).deg ≤ 1 := by
  induction l with
  | nil => simp [sumExpr, Expr.deg]
  | cons e l ih =>
      simp only [sumExpr, List.foldr_cons] at *
      have h1 := h e (by simp)
      have h2 := ih (fun x hx => h x (by simp [hx]))
      simp only [Expr.deg]
      omega

theorem deg_sumExpr_map_le {V α : Type} (l : List α) (f : α → Expr V)
    (h : ∀ x, (f x).deg ≤ 1) : (sumExpr (l.map f)).deg ≤ 1 := by
  refine deg_sumExpr_le _ ?_
  intro e he
  obtain ⟨x, _, rfl⟩ := List.mem_map.1 he
  exact h x

/-- A function of the variable assignment is affine when it is a linear map
plus a constant. -/
def IsAffineFn {V : Type} (f : (V → ℚ) → ℚ) : Prop :=
  ∃ (L : (V → ℚ) → ℚ) (c : ℚ), IsLinearMap ℚ L ∧ ∀ σ, f σ = L σ + c

theorem exists_const_of_deg_eq_zero {V : Type} (e : Expr V) (h : e.deg = 0) :
    ∃ q : ℚ, ∀ σ : V → ℚ, e.eval σ = q := by
  induction e with
  | const q => exact ⟨q, fun σ => rfl⟩
  | var v => simp [Expr.deg] at h
  | add a b iha ihb =>
      simp only [Expr.deg] at h
      obtain ⟨qa, ha⟩ := iha (by omega)
      obtain ⟨qb, hb⟩ := ihb (by omega)
      exact ⟨qa + qb, fun σ => by simp [Expr.eval, ha σ, hb σ]⟩
  | sub a b iha ihb =>
      simp only [Expr.deg] at h
      obtain ⟨qa, ha⟩ := iha (by omega)
      obtain ⟨qb, hb⟩ := ihb (by omega)
      exact ⟨qa - qb, fun σ => by simp [Expr.eval, ha σ, hb σ]⟩
  | mul a b iha ihb =>
      simp only [Expr.deg] at h
      obtain ⟨qa, ha⟩ := iha (by omega)
      obtain ⟨qb, hb⟩ := ihb (by omega)
      exact ⟨qa * qb, fun σ => by simp [Expr.eval, ha σ, hb σ]⟩
  | div a q iha =>
      simp only [Expr.deg] at h
      obtain ⟨qa, ha⟩ := iha h
      exact ⟨qa / q, fun σ => by simp [Expr.eval, ha σ]⟩

theorem isAffineFn_of_deg_le_one {V : Type} (e : Expr V) (h : e.deg ≤ 1) :
    IsAffineFn (fun σ : V → ℚ => e.eval σ) := by
  induction e with
  | const q =>
      exact ⟨fun _ => 0, q, ⟨fun x y => by simp, fun c x => by simp⟩,
        fun σ => by simp [Expr.eval]⟩
  | var v =>
      refine ⟨fun σ => σ v, 0, ⟨fun x y => rfl, fun c x => ?_⟩,
        fun σ => by simp [Expr.eval]⟩
      simp [Pi.smul_apply, smul_eq_mul]
  | add a b iha ihb =>
      simp only [Expr.deg] at h
      obtain ⟨La, ca, hLa, hfa⟩ := iha (by omega)
      obtain ⟨Lb, cb, hLb, hfb⟩ := ihb (by omega)
      refine ⟨fun σ => La σ + Lb σ, ca + cb, ⟨?_, ?_⟩, ?_⟩
      · intro x y
        rw [hLa.map_add, hLb.map_add]
        ring
      · intro c x
        rw [hLa.map_smul, hLb.map_smul]
        simp only [smul_eq_mul]
        ring
      · intro σ
        simp only [Expr.eval, hfa σ, hfb σ]
        ring
  | sub a b iha ihb =>
      simp only [Expr.deg] at h
      obtain ⟨La, ca, hLa, hfa⟩ := iha (by omega)
      obtain ⟨Lb, cb, hLb, hfb⟩ := ihb (by omega)
      refine ⟨fun σ => La σ - Lb σ, ca - cb, ⟨?_, ?_⟩, ?_⟩
      · intro x y
        rw [hLa.map_add, hLb.map_add]
        ring
      · intro c x
        rw [hLa.map_smul, hLb.map_smul]
        simp only [smul_eq_mul]
        ring
      · intro σ
        simp only [Expr.eval, hfa σ, hfb σ]
        ring
  | mul a b iha ihb =>
      simp only [Expr.deg] at h
      rcases (by omega : a.deg = 0 ∨ b.deg = 0) with h0 | h0
      · obtain ⟨q, hq⟩ := exists_const_of_deg_eq_zero a h0
        obtain ⟨L, c, hL, hf⟩ := ihb (by omega)
        refine ⟨fun σ => q * L σ, q * c, ⟨?_, ?_⟩, ?_⟩
        · intro x y
          rw [hL.map_add]
          ring
        · intro r x
          rw [hL.map_smul]
          simp only [smul_eq_mul]
          ring
        · intro σ
          simp only [Expr.eval, hq σ, hf σ]
          ring
      · obtain ⟨q, hq⟩ := exists_const_of_deg_eq_zero b h0
        obtain ⟨L, c, hL, hf⟩ := iha (by omega)
        refine ⟨fun σ => L σ * q, c * q, ⟨?_, ?_⟩, ?_⟩
        · intro x y
          rw [hL.map_add]
          ring
        · intro r x
          rw [hL.map_smul]
          simp only [smul_eq_mul]
          ring
        · intro σ
          simp only [Expr.eval, hq σ, hf σ]
          ring
  | div a q iha =>
      simp only [Expr.deg] at h
      obtain ⟨L, c, hL, hf⟩ := iha h
      refine ⟨fun σ => L σ / q, c / q, ⟨?_, ?_⟩, ?_⟩
      · intro x y
        rw [hL.map_add, add_div]
      · intro r x
        rw [hL.map_smul]
        simp only [smul_eq_mul]
        rw [mul_div_assoc]
      · intro σ
        simp only [Expr.eval, hf σ]
        rw [add_div]

/-- A constraint is linear when both of its sides evaluate to affine
functions of the decision variables. -/
def Constr.Linear {V : Type} (c : Constr V) : Prop :=
  IsAffineFn (fun σ : V → ℚ => c.lhs.eval σ) ∧
    IsAffineFn (fun σ : V → ℚ => c.rhs.eval σ)

theorem linear_of_degs {V : Type} {c : Constr V}
    (h1 : c.lhs.deg ≤ 1) (h2 : c.rhs.deg ≤ 1) : c.Linear :=
  ⟨isAffineFn_of_deg_le_one c.lhs h1, isAffineFn_of_deg_le_one c.rhs h2⟩

/-- The optimisation model data the blocks read: `m.TIMESTEPS` is
`0, ..., T-1` and `m.timeincrement` is the sequence of time increments. -/
structure Model where
  T : ℕ
  timeincrement : ℕ → ℚ

end DRoemof

namespace DRoemof

namespace DIW

/-! ### `oemof_SinkDSM.py` (DIW / Zerrahn-Schill formulation) -/

/-- Block classes a DIW `SinkDSM.constraint_group` call can return. -/
inductive BlockClass where
  | SinkDSMIntervalBlock : BlockClass
  | SinkDSMDelayBlock : BlockClass
deriving DecidableEq

/-- The state stored by `SinkDSM.__init__` (lines 150-173): parameters that
may legitimately be `None` in Python are `Option`-typed. -/
structure SinkDSM where
  demand : ℕ → ℚ
  capacity_up : ℕ → ℚ
  capacity_down : ℕ → ℚ
  method : String
  shift_interval : Option ℕ
  delay_time : Option ℕ
  shed_time : Option ℚ
  cost_dsm_up : ℚ
  cost_dsm_down_shift : ℚ
  cost_dsm_down_shed : ℚ
  efficiency : ℚ
  recovery_time_shift : Option ℕ
  recovery_time_shed : Option ℕ
  shed_eligibility : Bool
  shift_eligibility : Bool

/-- `SinkDSM.constraint_group` (lines 176-199): validates the parameters of
the chosen method and returns the corresponding block class, raising
`ValueError` (here: `Except.error`) otherwise.  The source reads attributes
only; it writes none. -/
def SinkDSM.constraint_group (g : SinkDSM) : Except String BlockClass :=
  if g.method = "delay" then
    if g.delay_time = none then
      Except.error "Please define: **delay_time is a mandatory parameter"
    else if g.shed_eligibility = false ∧ g.shift_eligibility = false then
      Except.error "At least one of **shed_eligibility and **shift_eligibility must be True"
    else if g.shed_eligibility = true ∧ g.recovery_time_shed = none then
      Except.error "If unit is eligible for load shedding, **recovery_time_shed must be defined"
    else
      Except.ok BlockClass.SinkDSMDelayBlock
  else if g.method = "interval" then
    if g.shift_interval = none then
      Except.error "Please define: **shift_interval is a mandatory parameter"
    else
      Except.ok BlockClass.SinkDSMIntervalBlock
  else
    Except.error "The method must be one of the following set: delay or interval"

/-- The component state as read by `SinkDSMIntervalBlock._create`; for a
component that passed the `interval` validation, `shift_interval` is a
number. -/
structure IntervalParams where
  demand : ℕ → ℚ
  capacity_up : ℕ → ℚ
  capacity_down : ℕ → ℚ
  shift_interval : ℕ
  efficiency : ℚ

/-- Decision variables of `SinkDSMIntervalBlock` (plus the model's flow
variable into the component). -/
inductive IntervalVar where
  | flow : ℕ → IntervalVar
  | dsm_do : ℕ → IntervalVar
  | dsm_up : ℕ → IntervalVar
deriving DecidableEq

/-- `Var` declarations of `SinkDSMIntervalBlock._create` (lines 274-279). -/
def SinkDSMIntervalBlock.varDecls : List VarDecl :=
  [VarDecl.mk "dsm_do" Dom.nonNegativeReals,
   VarDecl.mk "dsm_up" Dom.nonNegativeReals]

/-- `_input_output_relation_rule` of the interval block (lines 284-299):
`flow[t] == demand[t] + dsm_up[t] - dsm_do[t]`. -/
def interval_input_output_relation_rule (m : Model) (g : IntervalParams) :
    List (Constr IntervalVar) :=
  (List.range m.T).map (fun t =>
    Constr.mk (Expr.var (IntervalVar.flow t)) Rel.eq
      (Expr.sub
        (Expr.add (Expr.const (g.demand t)) (Expr.var (IntervalVar.dsm_up t)))
        (Expr.var (IntervalVar.dsm_do t))))

/-- `dsm_up_constraint_rule` of the interval block (lines 307-321). -/
def interval_dsm_up_constraint_rule (m : Model) (g : IntervalParams) :
    List (Constr IntervalVar) :=
  (List.range m.T).map (fun t =>
    Constr.mk (Expr.var (IntervalVar.dsm_up t)) Rel.le
      (Expr.const (g.capacity_up t)))

/-- `dsm_down_constraint_rule` of the interval block (lines 328-342). -/
def interval_dsm_down_constraint_rule (m : Model) (g : IntervalParams) :
    List (Constr IntervalVar) :=
  (List.range m.T).map (fun t =>
    Constr.mk (Expr.var (IntervalVar.dsm_do t)) Rel.le
      (Expr.const (g.capacity_down t)))

/-- The timesteps of one balancing interval starting at `interval`
(lines 363-369): the last interval may be truncated at `T-1`. -/
def intervalTimesteps (T τ interval : ℕ) : List ℕ :=
  if T - 1 < interval + τ - 1 then pyRange interval T
  else pyRange interval (interval + τ)

/-- `dsm_sum_constraint_rule` of the interval block (lines 349-379):
`sum dsm_up * efficiency == sum dsm_do` over each interval of
`range(0, T-1, shift_interval)`. -/
def interval_dsm_sum_constraint_rule (m : Model) (g : IntervalParams) :
    List (Constr IntervalVar) :=
  (pyRangeStep 0 (m.T - 1) g.shift_interval).map (fun interval =>
    Constr.mk
      (Expr.mul
        (sumExpr ((intervalTimesteps m.T g.shift_interval interval).map
          (fun tt => Expr.var (IntervalVar.dsm_up tt))))
        (Expr.const g.efficiency))
      Rel.eq
      (sumExpr ((intervalTimesteps m.T g.shift_interval interval).map
        (fun tt => Expr.var (IntervalVar.dsm_do tt)))))

/-- All constraints added by `SinkDSMIntervalBlock._create`, in source
order. -/
def SinkDSMIntervalBlock.constraints (m : Model) (g : IntervalParams) :
    List (Constr IntervalVar) :=
  interval_input_output_relation_rule m g ++
    interval_dsm_up_constraint_rule m g ++
    interval_dsm_down_constraint_rule m g ++
    interval_dsm_sum_constraint_rule m g

/-- `SinkDSMIntervalBlock._create`: Python `range` with step `0`
(`shift_interval = 0` in `dsm_sum_constraint_rule`, line 358) raises
`ValueError`; otherwise the constraint lists above are built. -/
def SinkDSMIntervalBlock.create (m : Model) (g : IntervalParams) :
    Except String (List (Constr IntervalVar)) :=
  if 0 < m.T ∧ g.shift_interval = 0 then
    Except.error "ValueError: range arg 3 must not be zero"
  else
    Except.ok (SinkDSMIntervalBlock.constraints m g)

/-- The component state as read by `SinkDSMDelayBlock._create`; for a
component that passed the `delay` validation, `delay_time` is a number, and
`recovery_time_shed` is a number whenever `shed_eligibility` (the only case
in which it is read). -/
structure DelayParams where
  demand : ℕ → ℚ
  capacity_up : ℕ → ℚ
  capacity_down : ℕ → ℚ
  delay_time : ℕ
  shed_time : ℚ
  efficiency : ℚ
  recovery_time_shift : Option ℕ
  recovery_time_shed : ℕ
  shed_eligibility : Bool
  shift_eligibility : Bool

/-- Decision variables of `SinkDSMDelayBlock` (plus the model's flow
variable): `dsm_do_shift` carries two time indices `(t, tt)`. -/
inductive DelayVar where
  | flow : ℕ → DelayVar
  | dsm_do_shift : ℕ → ℕ → DelayVar
  | dsm_do_shed : ℕ → DelayVar
  | dsm_up : ℕ → DelayVar
deriving DecidableEq

/-- `Var` declarations of `SinkDSMDelayBlock._create` (lines 488-498). -/
def SinkDSMDelayBlock.varDecls : List VarDecl :=
  [VarDecl.mk "dsm_do_shift" Dom.nonNegativeReals,
   VarDecl.mk "dsm_do_shed" Dom.nonNegativeReals,
   VarDecl.mk "dsm_up" Dom.nonNegativeReals]

/-- The delay window around timestep `t` used by every rule of the delay
block: Python `range(t + L + 1)` for `t <= L`,
`range(t - L, t + L + 1)` for `L < t <= (T-1) - L` (the bound rendered
additively as `t + L ≤ T - 1`), and `range(t - L, T)` otherwise. -/
def window (T L t : ℕ) : List ℕ :=
  if t ≤ L then pyRange 0 (t + L + 1)
  else if t + L ≤ T - 1 then pyRange (t - L) (t + L + 1)
  else pyRange (t - L) T

/-- `_shift_shed_vars_rule` of the delay block (lines 502-524): with
`shift_eligibility = False` the source indexes the three-dimensional
`dsm_do_shift` variable with two indices (`self.dsm_do_shift[g, t]`),
which raises `KeyError`; `SinkDSMDelayBlock.create` returns that error, so
this list is only used when `shift_eligibility` holds, in which case only
the shedding branch fires. -/
def delay_shift_shed_vars_rule (m : Model) (g : DelayParams) :
    List (Constr DelayVar) :=
  (List.range m.T).filterMap (fun t =>
    if g.shed_eligibility then none
    else some (Constr.mk (Expr.var (DelayVar.dsm_do_shed t)) Rel.eq
      (Expr.const 0)))

/-- `_input_output_relation_rule` of the delay block (lines 532-582):
`flow[t] == demand[t] + dsm_up[t] - sum(dsm_do_shift[tt, t] for tt in
window) - dsm_do_shed[t]`. -/
def delay_input_output_relation_rule (m : Model) (g : DelayParams) :
    List (Constr DelayVar) :=
  (List.range m.T).map (fun t =>
    Constr.mk (Expr.var (DelayVar.flow t)) Rel.eq
      (Expr.sub
        (Expr.sub
          (Expr.add (Expr.const (g.demand t)) (Expr.var (DelayVar.dsm_up t)))
          (sumExpr ((window m.T g.delay_time t).map
            (fun tt => Expr.var (DelayVar.dsm_do_shift tt t)))))
        (Expr.var (DelayVar.dsm_do_shed t))))

/-- `dsm_up_down_constraint_rule` (equation 7, lines 590-640):
`dsm_up[t] * efficiency == sum(dsm_do_shift[t, tt] for tt in window)`. -/
def dsm_up_down_constraint_rule (m : Model) (g : DelayParams) :
    List (Constr DelayVar) :=
  (List.range m.T).map (fun t =>
    Constr.mk
      (Expr.mul (Expr.var (DelayVar.dsm_up t)) (Expr.const g.efficiency))
      Rel.eq
      (sumExpr ((window m.T g.delay_time t).map
        (fun tt => Expr.var (DelayVar.dsm_do_shift t tt)))))

/-- `dsm_up_constraint_rule` (equation 8, lines 648-663). -/
def dsm_up_constraint_rule (m : Model) (g : DelayParams) :
    List (Constr DelayVar) :=
  (List.range m.T).map (fun t =>
    Constr.mk (Expr.var (DelayVar.dsm_up t)) Rel.le
      (Expr.const (g.capacity_up t)))

/-- `dsm_do_constraint_rule` (equation 9, lines 670-768): the downward
capacity bound is only generated for shift-eligible components; the
shed-only case is an explicit `pass` ("will be added later on"). -/
def dsm_do_constraint_rule (m : Model) (g : DelayParams) :
    List (Constr DelayVar) :=
  (List.range m.T).filterMap (fun tt =>
    if g.shed_eligibility = false ∧ g.shift_eligibility = true then
      some (Constr.mk
        (sumExpr ((window m.T g.delay_time tt).map
          (fun t => Expr.var (DelayVar.dsm_do_shift t tt))))
        Rel.le (Expr.const (g.capacity_down tt)))
    else if g.shed_eligibility = true ∧ g.shift_eligibility = true then
      some (Constr.mk
        (Expr.add
          (sumExpr ((window m.T g.delay_time tt).map
            (fun t => Expr.var (DelayVar.dsm_do_shift t tt))))
          (Expr.var (DelayVar.dsm_do_shed tt)))
        Rel.le (Expr.const (g.capacity_down tt)))
    else none)

/-- `c2_constraint_rule` (equation 10, lines 776-828):
`dsm_up[tt] + sum(dsm_do_shift[t, tt] for t in window) + dsm_do_shed[tt]
<= max(capacity_up[tt], capacity_down[tt])`. -/
def c2_constraint_rule (m : Model) (g : DelayParams) :
    List (Constr DelayVar) :=
  (List.range m.T).map (fun tt =>
    Constr.mk
      (Expr.add
        (Expr.add (Expr.var (DelayVar.dsm_up tt))
          (sumExpr ((window m.T g.delay_time tt).map
            (fun t => Expr.var (DelayVar.dsm_do_shift t tt)))))
        (Expr.var (DelayVar.dsm_do_shed tt)))
      Rel.le
      (Expr.const (max (g.capacity_up tt) (g.capacity_down tt))))

/-- `recovery_constraint_rule` (equation 11, lines 837-879): only built
when `recovery_time_shift` is defined. -/
def recovery_constraint_rule (m : Model) (g : DelayParams) :
    List (Constr DelayVar) :=
  (List.range m.T).filterMap (fun t =>
    match g.recovery_time_shift with
    | none => none
    | some R =>
        if t + R ≤ m.T - 1 then
          some (Constr.mk
            (sumExpr ((pyRange t (t + R)).map
              (fun tt => Expr.var (DelayVar.dsm_up tt))))
            Rel.le
            (Expr.const (g.capacity_up t * (g.delay_time : ℚ) *
              m.timeincrement t)))
        else
          some (Constr.mk
            (sumExpr ((pyRange t m.T).map
              (fun tt => Expr.var (DelayVar.dsm_up tt))))
            Rel.le
            (Expr.const (g.capacity_up t * (g.delay_time : ℚ) *
              m.timeincrement t))))

/-- `shed_limit_constraint_rule` (equation 9a, lines 887-924): only built
for shed-eligible components. -/
def shed_limit_constraint_rule (m : Model) (g : DelayParams) :
    List (Constr DelayVar) :=
  (List.range m.T).filterMap (fun t =>
    if g.shed_eligibility then
      if t + g.recovery_time_shed ≤ m.T - 1 then
        some (Constr.mk
          (sumExpr ((pyRange t (t + g.recovery_time_shed)).map
            (fun tt => Expr.var (DelayVar.dsm_do_shed tt))))
          Rel.le
          (Expr.const (g.capacity_down t * g.shed_time * m.timeincrement t)))
      else
        some (Constr.mk
          (sumExpr ((pyRange t m.T).map
            (fun tt => Expr.var (DelayVar.dsm_do_shed tt))))
          Rel.le
          (Expr.const (g.capacity_down t * g.shed_time * m.timeincrement t)))
    else none)

/-- All constraints added by `SinkDSMDelayBlock._create`, in source order
(only reached when no rule raises). -/
def SinkDSMDelayBlock.constraints (m : Model) (g : DelayParams) :
    List (Constr DelayVar) :=
  delay_shift_shed_vars_rule m g ++
    delay_input_output_relation_rule m g ++
    dsm_up_down_constraint_rule m g ++
    dsm_up_constraint_rule m g ++
    dsm_do_constraint_rule m g ++
    c2_constraint_rule m g ++
    recovery_constraint_rule m g ++
    shed_limit_constraint_rule m g

/-- `SinkDSMDelayBlock._create`.  Two situations make the source raise
`KeyError`: with `shift_eligibility = False` the first rule indexes the
three-dimensional `dsm_do_shift` with two indices (line 515), and with
`T ≤ 2 * delay_time` the first-region windows `range(t + L + 1)` reach
indices beyond `T - 1`, which are not in the variable's index set. -/
def SinkDSMDelayBlock.create (m : Model) (g : DelayParams) :
    Except String (List (Constr DelayVar)) :=
  if 0 < m.T ∧ g.shift_eligibility = false then
    Except.error "KeyError: dsm_do_shift indexed with two indices"
  else if 0 < m.T ∧ m.T ≤ 2 * g.delay_time then
    Except.error "KeyError: dsm_do_shift index beyond TIMESTEPS"
  else
    Except.ok (SinkDSMDelayBlock.constraints m g)

end DIW

end DRoemof

namespace DRoemof

namespace IER

/-! ### `oemof_DR_component_IER_naming_adjusted.py` (IER / Steurer) -/

/-- The state stored by `SinkDSI.__init__` (lines 90-114). -/
structure SinkDSI where
  demand : ℕ → ℚ
  capacity_up : ℕ → ℚ
  capacity_down : ℕ → ℚ
  delay_time : ℕ
  shift_time_up : ℕ
  shift_time_down : ℕ
  shed_time : ℕ
  cumulative_shift_time : ℚ
  cumulative_shed_time : ℚ
  cost_dsm_up : ℚ
  cost_dsm_down_shift : ℚ
  cost_dsm_down_shed : ℚ
  efficiency : ℚ
  addition : Bool
  shed_eligibility : Bool
  shift_eligibility : Bool

/-- Decision variables of `SinkDSIBlock` (plus the model's flow variable). -/
inductive DSIVar where
  | flow : ℕ → DSIVar
  | dsm_do_shift : ℕ → DSIVar
  | dsm_do_shed : ℕ → DSIVar
  | dsm_up : ℕ → DSIVar
deriving DecidableEq

/-- `Var` declarations of `SinkDSIBlock._create` (lines 185-194). -/
def SinkDSIBlock.varDecls : List VarDecl :=
  [VarDecl.mk "dsm_do_shift" Dom.nonNegativeReals,
   VarDecl.mk "dsm_do_shed" Dom.nonNegativeReals,
   VarDecl.mk "dsm_up" Dom.nonNegativeReals]

/-- `_shift_shed_vars_rule` (lines 198-220): both variables here are
two-dimensional, so both eligibility branches are well-formed.  Python
interleaves the two branches per timestep; the two filtered lists hold the
same constraints. -/
def dsi_shift_shed_vars_rule (m : Model) (g : SinkDSI) :
    List (Constr DSIVar) :=
  ((List.range m.T).filterMap (fun t =>
    if g.shift_eligibility then none
    else some (Constr.mk (Expr.var (DSIVar.dsm_do_shift t)) Rel.eq
      (Expr.const 0)))) ++
  ((List.range m.T).filterMap (fun t =>
    if g.shed_eligibility then none
    else some (Constr.mk (Expr.var (DSIVar.dsm_do_shed t)) Rel.eq
      (Expr.const 0))))

/-- `_input_output_relation_rule` (lines 228-245):
`flow[t] == demand[t] - dsm_do_shift[t] + dsm_up[t] - dsm_do_shed[t]`. -/
def dsi_input_output_relation_rule (m : Model) (g : SinkDSI) :
    List (Constr DSIVar) :=
  (List.range m.T).map (fun t =>
    Constr.mk (Expr.var (DSIVar.flow t)) Rel.eq
      (Expr.sub
        (Expr.add
          (Expr.sub (Expr.const (g.demand t))
            (Expr.var (DSIVar.dsm_do_shift t)))
          (Expr.var (DSIVar.dsm_up t)))
        (Expr.var (DSIVar.dsm_do_shed t))))

/-- `dsi_availability_down_rule` (equation 4-2 down, lines 253-270):
`dsm_do_shift[t] + dsm_do_shed[t] <= capacity_down[t]`. -/
def dsi_availability_down_rule (m : Model) (g : SinkDSI) :
    List (Constr DSIVar) :=
  (List.range m.T).map (fun t =>
    Constr.mk
      (Expr.add (Expr.var (DSIVar.dsm_do_shift t))
        (Expr.var (DSIVar.dsm_do_shed t)))
      Rel.le (Expr.const (g.capacity_down t)))

/-- `dsi_availability_up_rule` (equation 4-2 up, lines 278-295):
`dsm_up[t] <= capacity_up[t]`. -/
def dsi_availability_up_rule (m : Model) (g : SinkDSI) :
    List (Constr DSIVar) :=
  (List.range m.T).map (fun t =>
    Constr.mk (Expr.var (DSIVar.dsm_up t)) Rel.le
      (Expr.const (g.capacity_up t)))

/-- `dsi_energy_balance_rule` (equation 4-4, lines 303-338):
`sum(dsm_do_shift) == sum(dsm_up * efficiency)` over the delay window
starting at `t`, truncated at the horizon end. -/
def dsi_energy_balance_rule (m : Model) (g : SinkDSI) :
    List (Constr DSIVar) :=
  (List.range m.T).map (fun t =>
    if t + g.delay_time ≤ m.T - 1 then
      Constr.mk
        (sumExpr ((pyRange t (t + g.delay_time + 1)).map
          (fun tt => Expr.var (DSIVar.dsm_do_shift tt))))
        Rel.eq
        (sumExpr ((pyRange t (t + g.delay_time + 1)).map
          (fun tt => Expr.mul (Expr.var (DSIVar.dsm_up tt))
            (Expr.const g.efficiency))))
    else
      Constr.mk
        (sumExpr ((pyRange t m.T).map
          (fun tt => Expr.var (DSIVar.dsm_do_shift tt))))
        Rel.eq
        (sumExpr ((pyRange t m.T).map
          (fun tt => Expr.mul (Expr.var (DSIVar.dsm_up tt))
            (Expr.const g.efficiency)))))

/-- `dsi_shifting_limit_down_rule` (equation 4-5 down, lines 346-384). -/
def dsi_shifting_limit_down_rule (m : Model) (g : SinkDSI) :
    List (Constr DSIVar) :=
  (List.range m.T).map (fun t =>
    if t + g.delay_time ≤ m.T - 1 then
      Constr.mk
        (sumExpr ((pyRange t (t + g.delay_time + 1)).map
          (fun tt => Expr.mul (Expr.var (DSIVar.dsm_do_shift tt))
            (Expr.const (m.timeincrement tt)))))
        Rel.le
        (Expr.const ((g.shift_time_down : ℚ) * seqMax g.capacity_down m.T))
    else
      Constr.mk
        (sumExpr ((pyRange t m.T).map
          (fun tt => Expr.mul (Expr.var (DSIVar.dsm_do_shift tt))
            (Expr.const (m.timeincrement tt)))))
        Rel.le
        (Expr.const ((min g.shift_time_down (m.T - 1 - t + 1) : ℚ) *
          seqMax g.capacity_down m.T)))

/-- `dsi_shedding_limit_rule` (equation 4-5 shedding, lines 392-429). -/
def dsi_shedding_limit_rule (m : Model) (g : SinkDSI) :
    List (Constr DSIVar) :=
  (List.range m.T).map (fun t =>
    if t + g.shed_time ≤ m.T - 1 then
      Constr.mk
        (sumExpr ((pyRange t (t + g.shed_time + 1)).map
          (fun tt => Expr.mul (Expr.var (DSIVar.dsm_do_shed tt))
            (Expr.const (m.timeincrement tt)))))
        Rel.le
        (Expr.const ((g.shed_time : ℚ) * seqMax g.capacity_down m.T))
    else
      Constr.mk
        (sumExpr ((pyRange t m.T).map
          (fun tt => Expr.mul (Expr.var (DSIVar.dsm_do_shed tt))
            (Expr.const (m.timeincrement tt)))))
        Rel.le
        (Expr.const ((min g.shed_time (m.T - 1 - t + 1) : ℚ) *
          seqMax g.capacity_down m.T)))

/-- `dsi_shifting_limit_up_rule` (equation 4-5 up, lines 437-475). -/
def dsi_shifting_limit_up_rule (m : Model) (g : SinkDSI) :
    List (Constr DSIVar) :=
  (List.range m.T).map (fun t =>
    if t + g.delay_time ≤ m.T - 1 then
      Constr.mk
        (sumExpr ((pyRange t (t + g.delay_time + 1)).map
          (fun tt => Expr.mul (Expr.var (DSIVar.dsm_up tt))
            (Expr.const (m.timeincrement tt)))))
        Rel.le
        (Expr.const ((g.shift_time_up : ℚ) * seqMax g.capacity_up m.T))
    else
      Constr.mk
        (sumExpr ((pyRange t m.T).map
          (fun tt => Expr.mul (Expr.var (DSIVar.dsm_up tt))
            (Expr.const (m.timeincrement tt)))))
        Rel.le
        (Expr.const ((min g.shift_time_up (m.T - 1 - t + 1) : ℚ) *
          seqMax g.capacity_up m.T)))

/-- `dsi_overall_energy_limit_down_rule` (equation 4-6 down, lines
483-507): one constraint per component. -/
def dsi_overall_energy_limit_down_rule (m : Model) (g : SinkDSI) :
    List (Constr DSIVar) :=
  [Constr.mk
    (sumExpr ((pyRange 0 m.T).map
      (fun t => Expr.mul (Expr.var (DSIVar.dsm_do_shift t))
        (Expr.const (m.timeincrement t)))))
    Rel.le
    (Expr.const (g.cumulative_shift_time * seqMax g.capacity_down m.T))]

/-- `dsi_overall_shedding_limit_rule` (equation 4-6 shedding, lines
514-537). -/
def dsi_overall_shedding_limit_rule (m : Model) (g : SinkDSI) :
    List (Constr DSIVar) :=
  [Constr.mk
    (sumExpr ((pyRange 0 m.T).map
      (fun t => Expr.mul (Expr.var (DSIVar.dsm_do_shed t))
        (Expr.const (m.timeincrement t)))))
    Rel.le
    (Expr.const (g.cumulative_shed_time * seqMax g.capacity_down m.T))]

/-- `dsi_overall_energy_limit_up_rule` (equation 4-6 up, lines 544-568):
note the source sums `dsm_up` without the time increment. -/
def dsi_overall_energy_limit_up_rule (m : Model) (g : SinkDSI) :
    List (Constr DSIVar) :=
  [Constr.mk
    (sumExpr ((pyRange 0 m.T).map
      (fun t => Expr.var (DSIVar.dsm_up t))))
    Rel.le
    (Expr.const (g.cumulative_shift_time * seqMax g.capacity_up m.T))]

/-- `dsi_logic_rule` (optional addition, lines 575-599):
`dsm_do_shift[t] + dsm_up[t] + dsm_do_shed[t]
<= max(capacity_down[t], capacity_up[t])`. -/
def dsi_logic_rule (m : Model) (g : SinkDSI) : List (Constr DSIVar) :=
  (List.range m.T).filterMap (fun t =>
    if g.addition then
      some (Constr.mk
        (Expr.add
          (Expr.add (Expr.var (DSIVar.dsm_do_shift t))
            (Expr.var (DSIVar.dsm_up t)))
          (Expr.var (DSIVar.dsm_do_shed t)))
        Rel.le
        (Expr.const (max (g.capacity_down t) (g.capacity_up t))))
    else none)

/-- All constraints added by `SinkDSIBlock._create`, in source order. -/
def SinkDSIBlock.constraints (m : Model) (g : SinkDSI) :
    List (Constr DSIVar) :=
  dsi_shift_shed_vars_rule m g ++
    dsi_input_output_relation_rule m g ++
    dsi_availability_down_rule m g ++
    dsi_availability_up_rule m g ++
    dsi_energy_balance_rule m g ++
    dsi_shifting_limit_down_rule m g ++
    dsi_shedding_limit_rule m g ++
    dsi_shifting_limit_up_rule m g ++
    dsi_overall_energy_limit_down_rule m g ++
    dsi_overall_shedding_limit_rule m g ++
    dsi_overall_energy_limit_up_rule m g ++
    dsi_logic_rule m g

/-- `SinkDSI.constraint_group` (lines 116-117) unconditionally returns
`SinkDSIBlock`; we record the returned class as a tag. -/
inductive BlockClass where
  | SinkDSIBlock : BlockClass
deriving DecidableEq

def SinkDSI.constraint_group (_ : SinkDSI) : BlockClass :=
  BlockClass.SinkDSIBlock

end IER

end DRoemof

namespace DRoemof

namespace DLRns

/-! ### `oemof_DR_component_DLR_naming_adjusted_no_shed.py` (DLR / Gils) -/

/-- Block classes a DLR `SinkDR.constraint_group` call can return. -/
inductive BlockClass where
  | SinkDRBlock : BlockClass
  | SinkDRInvestmentBlock : BlockClass
deriving DecidableEq

/-- The state stored by `SinkDR.__init__` (lines 91-147) after successful
validation.  `capacity_down_mean` and `capacity_up_mean` are the stored
`mean(...)` values; `invest_group` records
`isinstance(self.investment, Investment)`.  `n_yearLimit_shift` and
`t_dayLimit` are only read under their activation flags (the constructor
guarantees them non-`None` exactly then); `n_yearLimit_shed` is never read
by this block. -/
structure SinkDR where
  demand : ℕ → ℚ
  capacity_down : ℕ → ℚ
  capacity_up : ℕ → ℚ
  delay_time : ℕ
  shift_time : ℕ
  shed_time : ℕ
  cost_dsm_up : ℚ
  cost_dsm_down_shift : ℚ
  cost_dsm_down_shed : ℚ
  efficiency : ℚ
  capacity_down_mean : ℚ
  capacity_up_mean : ℚ
  ActivateYearLimit : Bool
  ActivateDayLimit : Bool
  n_yearLimit_shift : ℕ
  n_yearLimit_shed : Option ℕ
  t_dayLimit : ℕ
  addition : Bool
  shed_eligibility : Bool
  shift_eligibility : Bool
  invest_group : Bool

/-- `SinkDR.constraint_group` (lines 149-153). -/
def SinkDR.constraint_group (g : SinkDR) : BlockClass :=
  if g.invest_group = true then BlockClass.SinkDRInvestmentBlock
  else BlockClass.SinkDRBlock

/-- Decision variables of `SinkDRBlock` (plus the model's flow variable). -/
inductive DRVar where
  | flow : ℕ → DRVar
  | dsm_do_shift : ℕ → DRVar
  | dsm_up : ℕ → DRVar
  | balance_dsm_do : ℕ → DRVar
  | balance_dsm_up : ℕ → DRVar
  | dsm_do_level : ℕ → DRVar
  | dsm_up_level : ℕ → DRVar
deriving DecidableEq

/-- `Var` declarations of `SinkDRBlock._create` (lines 236-264). -/
def SinkDRBlock.varDecls : List VarDecl :=
  [VarDecl.mk "dsm_do_shift" Dom.nonNegativeReals,
   VarDecl.mk "dsm_up" Dom.nonNegativeReals,
   VarDecl.mk "balance_dsm_do" Dom.nonNegativeReals,
   VarDecl.mk "balance_dsm_up" Dom.nonNegativeReals,
   VarDecl.mk "dsm_do_level" Dom.nonNegativeReals,
   VarDecl.mk "dsm_up_level" Dom.nonNegativeReals]

/-- `Var` declaration of `SinkDRInvestmentBlock._create` (lines 862-864). -/
def SinkDRInvestmentBlock.varDecls : List VarDecl :=
  [VarDecl.mk "invest" Dom.nonNegativeReals]

/-- `_shift_shed_vars_rule` (lines 268-287): in this no-shed variant only
the shifting branch emits constraints; the shedding branch is `pass`. -/
def dr_shift_shed_vars_rule (m : Model) (g : SinkDR) :
    List (Constr DRVar) :=
  (List.range m.T).filterMap (fun t =>
    if g.shift_eligibility then none
    else some (Constr.mk (Expr.var (DRVar.dsm_do_shift t)) Rel.eq
      (Expr.const 0)))

/-- `_input_output_relation_rule` (lines 295-313): `flow[t] == demand[t]
+ dsm_up[t] + balance_dsm_do[t] - dsm_do_shift[t] - balance_dsm_up[t]`. -/
def dr_input_output_relation_rule (m : Model) (g : SinkDR) :
    List (Constr DRVar) :=
  (List.range m.T).map (fun t =>
    Constr.mk (Expr.var (DRVar.flow t)) Rel.eq
      (Expr.sub
        (Expr.sub
          (Expr.add
            (Expr.add (Expr.const (g.demand t)) (Expr.var (DRVar.dsm_up t)))
            (Expr.var (DRVar.balance_dsm_do t)))
          (Expr.var (DRVar.dsm_do_shift t)))
        (Expr.var (DRVar.balance_dsm_up t))))

/-- `capacity_balance_red_rule` (equation 4.8, lines 321-356):
`balance_dsm_do[t] == dsm_do_shift[t - delay_time] / efficiency` for
`t >= delay_time`, forced to `0` at the first timestep (and everywhere if
only shedding is possible). -/
def capacity_balance_red_rule (m : Model) (g : SinkDR) :
    List (Constr DRVar) :=
  (List.range m.T).filterMap (fun t =>
    if g.shift_eligibility then
      if g.delay_time ≤ t then
        some (Constr.mk (Expr.var (DRVar.balance_dsm_do t)) Rel.eq
          (Expr.div (Expr.var (DRVar.dsm_do_shift (t - g.delay_time)))
            g.efficiency))
      else if t = 0 then
        some (Constr.mk (Expr.var (DRVar.balance_dsm_do t)) Rel.eq
          (Expr.const 0))
      else none
    else
      some (Constr.mk (Expr.var (DRVar.balance_dsm_do t)) Rel.eq
        (Expr.const 0)))

/-- `capacity_balance_inc_rule` (equation 4.9, lines 364-399):
`balance_dsm_up[t] == dsm_up[t - delay_time] * efficiency` for
`t >= delay_time`, forced to `0` at the first timestep (and everywhere if
only shedding is possible). -/
def capacity_balance_inc_rule (m : Model) (g : SinkDR) :
    List (Constr DRVar) :=
  (List.range m.T).filterMap (fun t =>
    if g.shift_eligibility then
      if g.delay_time ≤ t then
        some (Constr.mk (Expr.var (DRVar.balance_dsm_up t)) Rel.eq
          (Expr.mul (Expr.var (DRVar.dsm_up (t - g.delay_time)))
            (Expr.const g.efficiency)))
      else if t = 0 then
        some (Constr.mk (Expr.var (DRVar.balance_dsm_up t)) Rel.eq
          (Expr.const 0))
      else none
    else
      some (Constr.mk (Expr.var (DRVar.balance_dsm_up t)) Rel.eq
        (Expr.const 0)))

/-- `availability_red_rule` (equation 4.11, lines 448-464):
`dsm_do_shift[t] + balance_dsm_up[t] <= capacity_down[t]`. -/
def availability_red_rule (m : Model) (g : SinkDR) : List (Constr DRVar) :=
  (List.range m.T).map (fun t =>
    Constr.mk
      (Expr.add (Expr.var (DRVar.dsm_do_shift t))
        (Expr.var (DRVar.balance_dsm_up t)))
      Rel.le (Expr.const (g.capacity_down t)))

/-- `availability_inc_rule` (equation 4.12, lines 472-488):
`dsm_up[t] + balance_dsm_do[t] <= capacity_up[t]`. -/
def availability_inc_rule (m : Model) (g : SinkDR) : List (Constr DRVar) :=
  (List.range m.T).map (fun t =>
    Constr.mk
      (Expr.add (Expr.var (DRVar.dsm_up t))
        (Expr.var (DRVar.balance_dsm_do t)))
      Rel.le (Expr.const (g.capacity_up t)))

/-- `dr_storage_red_rule` (equation 4.13, lines 496-523): the fictitious
storage-level transition for load reductions. -/
def dr_storage_red_rule (m : Model) (g : SinkDR) : List (Constr DRVar) :=
  (List.range m.T).map (fun t =>
    if 0 < t then
      Constr.mk
        (Expr.mul (Expr.const (m.timeincrement t))
          (Expr.sub (Expr.var (DRVar.dsm_do_shift t))
            (Expr.mul (Expr.var (DRVar.balance_dsm_do t))
              (Expr.const g.efficiency))))
        Rel.eq
        (Expr.sub (Expr.var (DRVar.dsm_do_level t))
          (Expr.var (DRVar.dsm_do_level (t - 1))))
    else
      Constr.mk (Expr.var (DRVar.dsm_do_level t)) Rel.eq
        (Expr.mul (Expr.const (m.timeincrement t))
          (Expr.var (DRVar.dsm_do_shift t))))

/-- `dr_storage_inc_rule` (equation 4.14, lines 550-576): the fictitious
storage-level transition for load increases. -/
def dr_storage_inc_rule (m : Model) (g : SinkDR) : List (Constr DRVar) :=
  (List.range m.T).map (fun t =>
    if 0 < t then
      Constr.mk
        (Expr.mul (Expr.const (m.timeincrement t))
          (Expr.sub
            (Expr.mul (Expr.var (DRVar.dsm_up t)) (Expr.const g.efficiency))
            (Expr.var (DRVar.balance_dsm_up t))))
        Rel.eq
        (Expr.sub (Expr.var (DRVar.dsm_up_level t))
          (Expr.var (DRVar.dsm_up_level (t - 1))))
    else
      Constr.mk (Expr.var (DRVar.dsm_up_level t)) Rel.eq
        (Expr.mul (Expr.const (m.timeincrement t))
          (Expr.var (DRVar.dsm_up t))))

/-- `dr_storage_limit_red_rule` (equation 4.15, lines 603-617):
`dsm_do_level[t] <= capacity_down_mean * shift_time`. -/
def dr_storage_limit_red_rule (m : Model) (g : SinkDR) :
    List (Constr DRVar) :=
  (List.range m.T).map (fun t =>
    Constr.mk (Expr.var (DRVar.dsm_do_level t)) Rel.le
      (Expr.const (g.capacity_down_mean * (g.shift_time : ℚ))))

/-- `dr_storage_limit_inc_rule` (equation 4.16, lines 625-639):
`dsm_up_level[t] <= capacity_up_mean * shift_time`. -/
def dr_storage_limit_inc_rule (m : Model) (g : SinkDR) :
    List (Constr DRVar) :=
  (List.range m.T).map (fun t =>
    Constr.mk (Expr.var (DRVar.dsm_up_level t)) Rel.le
      (Expr.const (g.capacity_up_mean * (g.shift_time : ℚ))))

/-- `dr_yearly_limit_red_rule` (equation 4.17, lines 649-669): one optional
constraint per component. -/
def dr_yearly_limit_red_rule (m : Model) (g : SinkDR) :
    List (Constr DRVar) :=
  if g.ActivateYearLimit then
    [Constr.mk
      (sumExpr ((List.range m.T).map
        (fun t => Expr.var (DRVar.dsm_do_shift t))))
      Rel.le
      (Expr.const (g.capacity_down_mean * (g.shift_time : ℚ) *
        (g.n_yearLimit_shift : ℚ)))]
  else []

/-- `dr_yearly_limit_inc_rule` (equation 4.18, lines 676-696). -/
def dr_yearly_limit_inc_rule (m : Model) (g : SinkDR) :
    List (Constr DRVar) :=
  if g.ActivateYearLimit then
    [Constr.mk
      (sumExpr ((List.range m.T).map
        (fun t => Expr.var (DRVar.dsm_up t))))
      Rel.le
      (Expr.const (g.capacity_up_mean * (g.shift_time : ℚ) *
        (g.n_yearLimit_shift : ℚ)))]
  else []

/-- `dr_daily_limit_red_rule` (equation 4.19, lines 703-732):
`dsm_do_shift[t] <= capacity_down_mean * shift_time
- sum(dsm_do_shift[t - td] for td in range(t_dayLimit))` for
`t >= t_dayLimit`. -/
def dr_daily_limit_red_rule (m : Model) (g : SinkDR) :
    List (Constr DRVar) :=
  (List.range m.T).filterMap (fun t =>
    if g.ActivateDayLimit then
      if g.t_dayLimit ≤ t then
        some (Constr.mk (Expr.var (DRVar.dsm_do_shift t)) Rel.le
          (Expr.sub
            (Expr.const (g.capacity_down_mean * (g.shift_time : ℚ)))
            (sumExpr ((List.range g.t_dayLimit).map
              (fun td => Expr.var (DRVar.dsm_do_shift (t - td)))))))
      else none
    else none)

/-- `dr_daily_limit_inc_rule` (equation 4.20, lines 740-774). -/
def dr_daily_limit_inc_rule (m : Model) (g : SinkDR) :
    List (Constr DRVar) :=
  (List.range m.T).filterMap (fun t =>
    if g.ActivateDayLimit then
      if g.t_dayLimit ≤ t then
        some (Constr.mk (Expr.var (DRVar.dsm_up t)) Rel.le
          (Expr.sub
            (Expr.const (g.capacity_up_mean * (g.shift_time : ℚ)))
            (sumExpr ((List.range g.t_dayLimit).map
              (fun td => Expr.var (DRVar.dsm_up (t - td)))))))
      else none
    else none)

/-- `dr_logical_constraint_rule` (optional addition, lines 777-805):
`dsm_up[t] + balance_dsm_do[t] + dsm_do_shift[t] + balance_dsm_up[t]
<= max(capacity_down[t], capacity_up[t])`. -/
def dr_logical_constraint_rule (m : Model) (g : SinkDR) :
    List (Constr DRVar) :=
  (List.range m.T).filterMap (fun t =>
    if g.addition then
      some (Constr.mk
        (Expr.add
          (Expr.add
            (Expr.add (Expr.var (DRVar.dsm_up t))
              (Expr.var (DRVar.balance_dsm_do t)))
            (Expr.var (DRVar.dsm_do_shift t)))
          (Expr.var (DRVar.balance_dsm_up t)))
        Rel.le
        (Expr.const (max (g.capacity_down t) (g.capacity_up t))))
    else none)

/-- All constraints added by `SinkDRBlock._create`, in source order. -/
def SinkDRBlock.constraints (m : Model) (g : SinkDR) : List (Constr DRVar) :=
  dr_shift_shed_vars_rule m g ++
    dr_input_output_relation_rule m g ++
    capacity_balance_red_rule m g ++
    capacity_balance_inc_rule m g ++
    availability_red_rule m g ++
    availability_inc_rule m g ++
    dr_storage_red_rule m g ++
    dr_storage_inc_rule m g ++
    dr_storage_limit_red_rule m g ++
    dr_storage_limit_inc_rule m g ++
    dr_yearly_limit_red_rule m g ++
    dr_yearly_limit_inc_rule m g ++
    dr_daily_limit_red_rule m g ++
    dr_daily_limit_inc_rule m g ++
    dr_logical_constraint_rule m g

/-- The raise logic of `SinkDR.__init__` (lines 131-144), shared verbatim
with the shifting-classes module: the remaining constructor statements
only store attributes and cannot raise `ValueError`. -/
def SinkDR.init_checks (ActivateYearLimit ActivateDayLimit
    shed_eligibility : Bool)
    (n_yearLimit_shift n_yearLimit_shed t_dayLimit : Option ℕ) :
    Except String Unit :=
  if ActivateYearLimit = true ∧ n_yearLimit_shift = none then
    Except.error "Parameter n_yearLimit_shift must be set if year limit is active."
  else if ActivateDayLimit = true ∧ t_dayLimit = none then
    Except.error "Parameter t_dayLimit must be set if day limit is active."
  else if shed_eligibility = true ∧ n_yearLimit_shed = none then
    Except.error "Parameter n_yearLimit_shed must be set if shed_eligibility is True."
  else
    Except.ok ()

end DLRns

namespace DLRsc

/-! ### `oemof_DR_component_DLR_naming_adjusted_shifting_classes.py`
(the DLR variant with shifting classes): only the constructor validation
(lines 144-157, textually identical to the no-shed module) and the `Var`
declarations (lines 266-302, 988-990) are needed by the claims. -/

/-- The raise logic of `SinkDR.__init__` of the shifting-classes module
(lines 144-157). -/
def SinkDR.init_checks (ActivateYearLimit ActivateDayLimit
    shed_eligibility : Bool)
    (n_yearLimit_shift n_yearLimit_shed t_dayLimit : Option ℕ) :
    Except String Unit :=
  if ActivateYearLimit = true ∧ n_yearLimit_shift = none then
    Except.error "Parameter n_yearLimit_shift must be set if year limit is active."
  else if ActivateDayLimit = true ∧ t_dayLimit = none then
    Except.error "Parameter t_dayLimit must be set if day limit is active."
  else if shed_eligibility = true ∧ n_yearLimit_shed = none then
    Except.error "Parameter n_yearLimit_shed must be set if shed_eligibility is True."
  else
    Except.ok ()

/-- `Var` declarations of the shifting-classes `SinkDRBlock._create`
(lines 266-302). -/
def SinkDRBlock.varDecls : List VarDecl :=
  [VarDecl.mk "dsm_do_shift" Dom.nonNegativeReals,
   VarDecl.mk "dsm_do_shed" Dom.nonNegativeReals,
   VarDecl.mk "dsm_up" Dom.nonNegativeReals,
   VarDecl.mk "balance_dsm_do" Dom.nonNegativeReals,
   VarDecl.mk "balance_dsm_up" Dom.nonNegativeReals,
   VarDecl.mk "dsm_do_level" Dom.nonNegativeReals,
   VarDecl.mk "dsm_up_level" Dom.nonNegativeReals]

/-- `Var` declaration of the shifting-classes `SinkDRInvestmentBlock`
(lines 988-990). -/
def SinkDRInvestmentBlock.varDecls : List VarDecl :=
  [VarDecl.mk "invest" Dom.nonNegativeReals]

end DLRsc

end DRoemof

namespace DRoemof

namespace TUD

/-! ### `oemof_DR_component_TUD_naming_adjusted.py` (TUD / Ladwig) -/

/-- The state stored by the TUD `SinkDSM.__init__` (lines 72-97);
`delay_time` is computed as `shift_time_down + postpone_time`. -/
structure SinkDSM where
  demand : ℕ → ℚ
  capacity_up : ℕ → ℚ
  capacity_down : ℕ → ℚ
  shift_time_down : ℕ
  postpone_time : ℕ
  shed_time : ℚ
  annual_frequency_shift : ℚ
  daily_frequency_shift : ℚ
  annual_frequency_shed : ℚ
  cost_dsm_up : ℚ
  cost_dsm_down_shift : ℚ
  cost_dsm_down_shed : ℚ
  addition : Bool
  shed_eligibility : Bool
  shift_eligibility : Bool

/-- `self.delay_time = shift_time_down + postpone_time` (line 87). -/
def SinkDSM.delay_time (g : SinkDSM) : ℕ :=
  g.shift_time_down + g.postpone_time

/-- `SinkDSM.constraint_group` of the TUD module (lines 99-100)
unconditionally returns `SinkDSMBlock`. -/
inductive BlockClass where
  | SinkDSMBlock : BlockClass
deriving DecidableEq

def SinkDSM.constraint_group (_ : SinkDSM) : BlockClass :=
  BlockClass.SinkDSMBlock

/-- Decision variables of the TUD `SinkDSMBlock` (plus the model's flow
variable). -/
inductive TUDVar where
  | flow : ℕ → TUDVar
  | dsm_do_shift : ℕ → TUDVar
  | dsm_do_shed : ℕ → TUDVar
  | dsm_up : ℕ → TUDVar
  | dsm_sl : ℕ → TUDVar
deriving DecidableEq

/-- `Var` declarations of the TUD `SinkDSMBlock._create` (lines 162-176):
the fictitious storage level `dsm_sl` is declared `within=Reals` and "May
take negative values". -/
def SinkDSMBlock.varDecls : List VarDecl :=
  [VarDecl.mk "dsm_do_shift" Dom.nonNegativeReals,
   VarDecl.mk "dsm_do_shed" Dom.nonNegativeReals,
   VarDecl.mk "dsm_up" Dom.nonNegativeReals,
   VarDecl.mk "dsm_sl" Dom.reals]

/-- `_shift_shed_vars_rule` (lines 180-202); both variables are
two-dimensional here, so both branches are well-formed. -/
def tud_shift_shed_vars_rule (m : Model) (g : SinkDSM) :
    List (Constr TUDVar) :=
  ((List.range m.T).filterMap (fun t =>
    if g.shift_eligibility then none
    else some (Constr.mk (Expr.var (TUDVar.dsm_do_shift t)) Rel.eq
      (Expr.const 0)))) ++
  ((List.range m.T).filterMap (fun t =>
    if g.shed_eligibility then none
    else some (Constr.mk (Expr.var (TUDVar.dsm_do_shed t)) Rel.eq
      (Expr.const 0))))

/-- `_input_output_relation_rule` (lines 210-227): `flow[t] == demand[t]
- dsm_do_shift[t] + dsm_up[t] - dsm_do_shed[t]`. -/
def tud_input_output_relation_rule (m : Model) (g : SinkDSM) :
    List (Constr TUDVar) :=
  (List.range m.T).map (fun t =>
    Constr.mk (Expr.var (TUDVar.flow t)) Rel.eq
      (Expr.sub
        (Expr.add
          (Expr.sub (Expr.const (g.demand t))
            (Expr.var (TUDVar.dsm_do_shift t)))
          (Expr.var (TUDVar.dsm_up t)))
        (Expr.var (TUDVar.dsm_do_shed t))))

/-- `dsm_availability_down_rule` (equation 4.23, lines 235-252):
`dsm_do_shift[t] + dsm_do_shed[t] <= capacity_down[t]`. -/
def dsm_availability_down_rule (m : Model) (g : SinkDSM) :
    List (Constr TUDVar) :=
  (List.range m.T).map (fun t =>
    Constr.mk
      (Expr.add (Expr.var (TUDVar.dsm_do_shift t))
        (Expr.var (TUDVar.dsm_do_shed t)))
      Rel.le (Expr.const (g.capacity_down t)))

/-- `dsm_availability_up_rule` (equation 4.27, lines 260-278):
`dsm_up[t] <= capacity_up[t]`. -/
def dsm_availability_up_rule (m : Model) (g : SinkDSM) :
    List (Constr TUDVar) :=
  (List.range m.T).map (fun t =>
    Constr.mk (Expr.var (TUDVar.dsm_up t)) Rel.le
      (Expr.const (g.capacity_up t)))

/-- `dsm_storage_level_rule` (equation 4.28, lines 286-310):
`dsm_sl[t] == dsm_sl[t-1] + dsm_up[t] - dsm_do_shift[t]` (without the
`dsm_sl[t-1]` term at `t = 0`). -/
def dsm_storage_level_rule (m : Model) (_g : SinkDSM) :
    List (Constr TUDVar) :=
  (List.range m.T).map (fun t =>
    if 0 < t then
      Constr.mk (Expr.var (TUDVar.dsm_sl t)) Rel.eq
        (Expr.sub
          (Expr.add (Expr.var (TUDVar.dsm_sl (t - 1)))
            (Expr.var (TUDVar.dsm_up t)))
          (Expr.var (TUDVar.dsm_do_shift t)))
    else
      Constr.mk (Expr.var (TUDVar.dsm_sl t)) Rel.eq
        (Expr.sub (Expr.var (TUDVar.dsm_up t))
          (Expr.var (TUDVar.dsm_do_shift t))))

/-- The balancing intervals of `dsm_storage_balanced_rule` (lines 332-334):
`range(0, int(annual_frequency_shift * delay_time), delay_time + 1)`.
Python `int(...)` truncates toward zero; for a nonpositive stop value both
renderings give the empty list. -/
def intervalsTUD (g : SinkDSM) : List ℕ :=
  pyRangeStep 0 (Int.toNat ⌊g.annual_frequency_shift *
    (g.delay_time : ℚ)⌋) (g.delay_time + 1)

/-- `dsm_storage_balanced_rule` (equations 4.29/4.30, lines 318-354):
`dsm_sl == 0` at every interval start and from the last interval start to
the horizon end.  Only used when `SinkDSMBlock.create` does not raise. -/
def dsm_storage_balanced_rule (m : Model) (g : SinkDSM) :
    List (Constr TUDVar) :=
  ((intervalsTUD g).map (fun interval =>
    Constr.mk (Expr.var (TUDVar.dsm_sl interval)) Rel.eq (Expr.const 0))) ++
  ((pyRange ((intervalsTUD g).getLastD 0) m.T).map (fun t =>
    Constr.mk (Expr.var (TUDVar.dsm_sl t)) Rel.eq (Expr.const 0)))

/-- The timesteps of one day starting at `day` (lines 376-380), truncated
at the horizon end. -/
def dayTimesteps (T day : ℕ) : List ℕ :=
  if T - 1 < day + 23 then pyRange day T else pyRange day (day + 24)

/-- `dsm_day_limit_rule` (equations 4.31/4.32, lines 362-391):
`sum(dsm_do_shift[t] * timeincrement[t]) <= sum(demand) / 24
* shift_time_down * daily_frequency_shift` over each day. -/
def dsm_day_limit_rule (m : Model) (g : SinkDSM) : List (Constr TUDVar) :=
  (pyRangeStep 0 m.T 24).map (fun day =>
    Constr.mk
      (sumExpr ((dayTimesteps m.T day).map
        (fun t => Expr.mul (Expr.var (TUDVar.dsm_do_shift t))
          (Expr.const (m.timeincrement t)))))
      Rel.le
      (Expr.const (((dayTimesteps m.T day).map g.demand).sum / 24 *
        (g.shift_time_down : ℚ) * g.daily_frequency_shift)))

/-- `dsm_down_limit_rule` (equation 4.33, lines 406-427):
`dsm_do_shift[t] <= capacity_down[t-1] - dsm_do_shift[t-1]` for `t > 0`. -/
def dsm_down_limit_rule (m : Model) (g : SinkDSM) : List (Constr TUDVar) :=
  (List.range m.T).filterMap (fun t =>
    if 0 < t then
      some (Constr.mk (Expr.var (TUDVar.dsm_do_shift t)) Rel.le
        (Expr.sub (Expr.const (g.capacity_down (t - 1)))
          (Expr.var (TUDVar.dsm_do_shift (t - 1)))))
    else none)

/-- `dsm_shed_limit_year_rule` (equation 4.34, lines 435-452): one
constraint per component. -/
def dsm_shed_limit_year_rule (m : Model) (g : SinkDSM) :
    List (Constr TUDVar) :=
  [Constr.mk
    (sumExpr ((List.range m.T).map
      (fun t => Expr.mul (Expr.var (TUDVar.dsm_do_shed t))
        (Expr.const (m.timeincrement t)))))
    Rel.le
    (Expr.const (g.annual_frequency_shed * g.shed_time *
      seqMax g.capacity_down m.T))]

/-- `dsm_shed_limit_day_rule` (equation 4.35, lines 459-486):
`sum(dsm_do_shed[t] * timeincrement[t]) <= shed_time * max(capacity_down)`
over each day. -/
def dsm_shed_limit_day_rule (m : Model) (g : SinkDSM) :
    List (Constr TUDVar) :=
  (pyRangeStep 0 m.T 24).map (fun day =>
    Constr.mk
      (sumExpr ((dayTimesteps m.T day).map
        (fun t => Expr.mul (Expr.var (TUDVar.dsm_do_shed t))
          (Expr.const (m.timeincrement t)))))
      Rel.le
      (Expr.const (g.shed_time *
        pymaxQ ((dayTimesteps m.T day).map g.capacity_down))))

/-- `dsm_logic_rule` (optional addition, lines 494-518):
`dsm_do_shift[t] + dsm_up[t] + dsm_do_shed[t]
<= max(demand[t], capacity_up[t] - demand[t])`. -/
def dsm_logic_rule (m : Model) (g : SinkDSM) : List (Constr TUDVar) :=
  (List.range m.T).filterMap (fun t =>
    if g.addition then
      some (Constr.mk
        (Expr.add
          (Expr.add (Expr.var (TUDVar.dsm_do_shift t))
            (Expr.var (TUDVar.dsm_up t)))
          (Expr.var (TUDVar.dsm_do_shed t)))
        Rel.le
        (Expr.const (max (g.demand t) (g.capacity_up t - g.demand t))))
    else none)

/-- All constraints added by the TUD `SinkDSMBlock._create`, in source
order. -/
def SinkDSMBlock.constraints (m : Model) (g : SinkDSM) :
    List (Constr TUDVar) :=
  tud_shift_shed_vars_rule m g ++
    tud_input_output_relation_rule m g ++
    dsm_availability_down_rule m g ++
    dsm_availability_up_rule m g ++
    dsm_storage_level_rule m g ++
    dsm_storage_balanced_rule m g ++
    dsm_day_limit_rule m g ++
    dsm_down_limit_rule m g ++
    dsm_shed_limit_year_rule m g ++
    dsm_shed_limit_day_rule m g ++
    dsm_logic_rule m g

/-- The TUD `SinkDSMBlock._create`: `dsm_storage_balanced_rule` raises
`KeyError` when some balancing interval lies beyond the horizon (the
index is not in the variable's index set), and `IndexError` at
`intervals[-1]` when the interval list is empty. -/
def SinkDSMBlock.create (m : Model) (g : SinkDSM) :
    Except String (List (Constr TUDVar)) :=
  if (intervalsTUD g).any (fun i => decide (m.T ≤ i)) then
    Except.error "KeyError: dsm_sl index beyond TIMESTEPS"
  else if intervalsTUD g = [] then
    Except.error "IndexError: list index out of range"
  else
    Except.ok (SinkDSMBlock.constraints m g)

end TUD

end DRoemof

namespace DRoemof

/-! ### Claim C10: variable domains -/

/-- The `Var` declarations of all constraint blocks of the repository. -/
def allBlockVarDecls : List VarDecl :=
  DIW.SinkDSMIntervalBlock.varDecls ++ DIW.SinkDSMDelayBlock.varDecls ++
    IER.SinkDSIBlock.varDecls ++ DLRns.SinkDRBlock.varDecls ++
    DLRns.SinkDRInvestmentBlock.varDecls ++ DLRsc.SinkDRBlock.varDecls ++
    DLRsc.SinkDRInvestmentBlock.varDecls ++ TUD.SinkDSMBlock.varDecls

/-- C10: every decision variable declared by any of the constraint blocks is
continuous (none is integer or binary) and ranges over the non-negative
reals, with the single exception of the TUD block's fictitious storage
level `dsm_sl`, which is declared over all reals and admits negative
values. -/
theorem claim_C10_variable_domains :
    (∀ v ∈ allBlockVarDecls, v.dom.isContinuous = true) ∧
    (∀ v ∈ allBlockVarDecls, v.name ≠ "dsm_sl" →
      v.dom = Dom.nonNegativeReals) ∧
    (∀ v ∈ allBlockVarDecls, v.name ≠ "dsm_sl" →
      ∀ q : ℚ, Dom.memQ q v.dom → 0 ≤ q) ∧
    VarDecl.mk "dsm_sl" Dom.reals ∈ TUD.SinkDSMBlock.varDecls ∧
    Dom.memQ (-1 : ℚ) Dom.reals := by
  have h2 : ∀ v ∈ allBlockVarDecls, v.name ≠ "dsm_sl" →
      v.dom = Dom.nonNegativeReals := by decide
  refine ⟨by decide, h2, ?_, by decide, trivial⟩
  intro v hv hname q hq
  rw [h2 v hv hname] at hq
  exact hq

/-- C10 witness: the DIW delay block's `dsm_up` variable is continuous and
non-negative. -/
theorem claim_C10_witness :
    VarDecl.mk "dsm_up" Dom.nonNegativeReals ∈ allBlockVarDecls ∧
    (VarDecl.mk "dsm_up" Dom.nonNegativeReals).name ≠ "dsm_sl" ∧
    ∀ q : ℚ, Dom.memQ q (VarDecl.mk "dsm_up" Dom.nonNegativeReals).dom →
      0 ≤ q :=
  ⟨by decide, by decide,
    claim_C10_variable_domains.2.2.1 (VarDecl.mk "dsm_up" Dom.nonNegativeReals)
      (by decide) (by decide)⟩

/-! ### Claim C2: each formulation's `constraint_group` dispatch -/

/-- C2: each of the four formulations is its own `Sink` subclass with an
associated constraint block, and for every validly parameterised instance
`constraint_group` returns that formulation's constraint block class: the
DIW `SinkDSM` returns `SinkDSMDelayBlock` resp. `SinkDSMIntervalBlock` for
the validated `delay` resp. `interval` method, IER `SinkDSI` always returns
`SinkDSIBlock`, DLR `SinkDR` returns `SinkDRBlock` (resp. its investment
subclass when an `Investment` object is attached), and the TUD `SinkDSM`
always returns its `SinkDSMBlock`. -/
theorem claim_C2_constraint_group_dispatch :
    (∀ g : DIW.SinkDSM, g.method = "delay" → g.delay_time ≠ none →
      (g.shed_eligibility = true ∨ g.shift_eligibility = true) →
      (g.shed_eligibility = true → g.recovery_time_shed ≠ none) →
      g.constraint_group = Except.ok DIW.BlockClass.SinkDSMDelayBlock) ∧
    (∀ g : DIW.SinkDSM, g.method = "interval" → g.shift_interval ≠ none →
      g.constraint_group = Except.ok DIW.BlockClass.SinkDSMIntervalBlock) ∧
    (∀ g : IER.SinkDSI,
      g.constraint_group = IER.BlockClass.SinkDSIBlock) ∧
    (∀ g : DLRns.SinkDR, g.invest_group = false →
      g.constraint_group = DLRns.BlockClass.SinkDRBlock) ∧
    (∀ g : DLRns.SinkDR, g.invest_group = true →
      g.constraint_group = DLRns.BlockClass.SinkDRInvestmentBlock) ∧
    (∀ g : TUD.SinkDSM,
      g.constraint_group = TUD.BlockClass.SinkDSMBlock) := by
  refine ⟨?_, ?_, fun g => rfl, ?_, ?_, fun g => rfl⟩
  · intro g h1 h2 h3 h4
    unfold DIW.SinkDSM.constraint_group
    have hA : ¬(g.shed_eligibility = false ∧ g.shift_eligibility = false) := by
      intro hc
      rcases h3 with h | h
      · rw [h] at hc
        exact absurd hc.1 (by decide)
      · rw [h] at hc
        exact absurd hc.2 (by decide)
    have hB : ¬(g.shed_eligibility = true ∧
        g.recovery_time_shed = none) := by
      intro hc
      exact absurd hc.2 (h4 hc.1)
    rw [if_pos h1, if_neg h2, if_neg hA, if_neg hB]
  · intro g h1 h2
    unfold DIW.SinkDSM.constraint_group
    rw [if_neg (by rw [h1]; decide), if_pos h1, if_neg h2]
  · intro g h
    unfold DLRns.SinkDR.constraint_group
    rw [if_neg (by rw [h]; decide)]
  · intro g h
    unfold DLRns.SinkDR.constraint_group
    rw [if_pos h]

/-- C2 witness: a concrete valid DIW delay-method component. -/
def gC2diw : DIW.SinkDSM :=
  DIW.SinkDSM.mk (fun _ => 0) (fun _ => 1) (fun _ => 1) "delay" none
    (some 1) (some 1) 0 0 0 1 none (some 1) true true

/-- C2 witness: a concrete valid TUD component. -/
def gC2tud : TUD.SinkDSM :=
  TUD.SinkDSM.mk (fun _ => 0) (fun _ => 1) (fun _ => 1) 1 1 1 1 1 1 0 0 0
    false true true

theorem claim_C2_witness :
    gC2diw.method = "delay" ∧
    gC2diw.constraint_group = Except.ok DIW.BlockClass.SinkDSMDelayBlock ∧
    gC2tud.constraint_group = TUD.BlockClass.SinkDSMBlock :=
  ⟨rfl,
    claim_C2_constraint_group_dispatch.1 gC2diw rfl (by decide)
      (Or.inl rfl) (fun _ => by decide),
    claim_C2_constraint_group_dispatch.2.2.2.2.2 gC2tud⟩

/-! ### Claim C8: DIW `constraint_group` error behaviour -/

/-- The exact condition under which `SinkDSM.constraint_group` raises
`ValueError`, read off the claim. -/
def diwRaises (g : DIW.SinkDSM) : Prop :=
  (g.method = "delay" ∧ (g.delay_time = none ∨
    (g.shed_eligibility = false ∧ g.shift_eligibility = false) ∨
    (g.shed_eligibility = true ∧ g.recovery_time_shed = none))) ∨
  (g.method = "interval" ∧ g.shift_interval = none) ∨
  (g.method ≠ "delay" ∧ g.method ≠ "interval")

/-- C8: `SinkDSM.constraint_group` raises `ValueError` exactly under
`diwRaises`, and otherwise returns `SinkDSMDelayBlock` for the delay method
and `SinkDSMIntervalBlock` for the interval method.  (The source method
only reads attributes, so the component state is unchanged in all cases;
the embedded function accordingly has no state effect.) -/
theorem claim_C8_constraint_group_errors (g : DIW.SinkDSM) :
    ((∃ e, g.constraint_group = Except.error e) ↔ diwRaises g) ∧
    (¬ diwRaises g → g.constraint_group =
      Except.ok (if g.method = "delay" then DIW.BlockClass.SinkDSMDelayBlock
        else DIW.BlockClass.SinkDSMIntervalBlock)) := by
  unfold DIW.SinkDSM.constraint_group diwRaises
  split_ifs with h1 h2 h3 h4 h5 h6
  · constructor
    · constructor
      · intro _
        exact Or.inl ⟨h1, Or.inl h2⟩
      · intro _
        exact ⟨_, rfl⟩
    · intro hn
      exact absurd (Or.inl ⟨h1, Or.inl h2⟩) hn
  · constructor
    · constructor
      · intro _
        exact Or.inl ⟨h1, Or.inr (Or.inl h3)⟩
      · intro _
        exact ⟨_, rfl⟩
    · intro hn
      exact absurd (Or.inl ⟨h1, Or.inr (Or.inl h3)⟩) hn
  · constructor
    · constructor
      · intro _
        exact Or.inl ⟨h1, Or.inr (Or.inr h4)⟩
      · intro _
        exact ⟨_, rfl⟩
    · intro hn
      exact absurd (Or.inl ⟨h1, Or.inr (Or.inr h4)⟩) hn
  · constructor
    · constructor
      · rintro ⟨e, he⟩
        exact absurd he (by simp)
      · rintro (⟨hm, hd | hs | hr⟩ | ⟨hm, hs⟩ | ⟨hm, _⟩)
        · exact absurd hd h2
        · exact absurd hs h3
        · exact absurd hr h4
        · rw [h1] at hm
          exact absurd hm (by decide)
        · exact absurd h1 hm
    · intro _
      rfl
  · constructor
    · constructor
      · intro _
        exact Or.inr (Or.inl ⟨h5, h6⟩)
      · intro _
        exact ⟨_, rfl⟩
    · intro hn
      exact absurd (Or.inr (Or.inl ⟨h5, h6⟩)) hn
  · constructor
    · constructor
      · rintro ⟨e, he⟩
        exact absurd he (by simp)
      · rintro (⟨hm, _⟩ | ⟨hm, hs⟩ | ⟨hm, hm2⟩)
        · exact absurd hm h1
        · exact absurd hs h6
        · exact absurd h5 hm2
    · intro _
      rfl
  · constructor
    · constructor
      · intro _
        exact Or.inr (Or.inr ⟨h1, h5⟩)
      · intro _
        exact ⟨_, rfl⟩
    · intro hn
      exact absurd (Or.inr (Or.inr ⟨h1, h5⟩)) hn

/-- C8 witness: a shed-eligible delay component without
`recovery_time_shed` raises, and `gC2diw`-like valid interval data
returns the interval block. -/
def gC8bad : DIW.SinkDSM :=
  DIW.SinkDSM.mk (fun _ => 0) (fun _ => 1) (fun _ => 1) "delay" none
    (some 1) (some 1) 0 0 0 1 none none true true

def gC8good : DIW.SinkDSM :=
  DIW.SinkDSM.mk (fun _ => 0) (fun _ => 1) (fun _ => 1) "interval" (some 2)
    none (some 1) 0 0 0 1 none none true true

theorem claim_C8_witness :
    (∃ e, gC8bad.constraint_group = Except.error e) ∧
    gC8good.constraint_group =
      Except.ok DIW.BlockClass.SinkDSMIntervalBlock := by
  constructor
  · exact (claim_C8_constraint_group_errors gC8bad).1.mpr
      (Or.inl ⟨rfl, Or.inr (Or.inr ⟨rfl, rfl⟩)⟩)
  · have h := (claim_C8_constraint_group_errors gC8good).2 ?_
    · simpa using h
    · intro hc
      rcases hc with ⟨hm, _⟩ | ⟨_, hs⟩ | ⟨_, hm2⟩
      · exact absurd hm (by decide)
      · exact absurd hs (by decide)
      · exact absurd rfl hm2

/-! ### Claim C9: DLR constructor validation -/

/-- C9: in both DLR modules, `SinkDR.__init__` raises `ValueError` exactly
when a year limit is activated without `n_yearLimit_shift`, a day limit is
activated without `t_dayLimit`, or shedding is eligible without
`n_yearLimit_shed`; otherwise construction succeeds.  Both modules share
the identical validation. -/
theorem claim_C9_dlr_init_validation (aYL aDL shed : Bool)
    (nYshift nYshed tDL : Option ℕ) :
    (DLRns.SinkDR.init_checks aYL aDL shed nYshift nYshed tDL =
      DLRsc.SinkDR.init_checks aYL aDL shed nYshift nYshed tDL) ∧
    ((∃ e, DLRns.SinkDR.init_checks aYL aDL shed nYshift nYshed tDL =
        Except.error e) ↔
      ((aYL = true ∧ nYshift = none) ∨ (aDL = true ∧ tDL = none) ∨
        (shed = true ∧ nYshed = none))) ∧
    (¬ ((aYL = true ∧ nYshift = none) ∨ (aDL = true ∧ tDL = none) ∨
        (shed = true ∧ nYshed = none)) →
      DLRns.SinkDR.init_checks aYL aDL shed nYshift nYshed tDL =
        Except.ok ()) := by
  refine ⟨rfl, ?_, ?_⟩
  · unfold DLRns.SinkDR.init_checks
    split_ifs with h1 h2 h3
    · exact iff_of_true ⟨_, rfl⟩ (Or.inl h1)
    · exact iff_of_true ⟨_, rfl⟩ (Or.inr (Or.inl h2))
    · exact iff_of_true ⟨_, rfl⟩ (Or.inr (Or.inr h3))
    · refine iff_of_false ?_ ?_
      · rintro ⟨e, he⟩
        simp at he
      · intro hc
        rcases hc with hc | hc | hc
        · exact h1 hc
        · exact h2 hc
        · exact h3 hc
  · intro hn
    unfold DLRns.SinkDR.init_checks
    rw [if_neg (fun hc => hn (Or.inl hc)),
      if_neg (fun hc => hn (Or.inr (Or.inl hc))),
      if_neg (fun hc => hn (Or.inr (Or.inr hc)))]

theorem claim_C9_witness :
    (∃ e, DLRns.SinkDR.init_checks true false true none (some 1) none =
      Except.error e) ∧
    DLRns.SinkDR.init_checks false false true (some 1) (some 1) none =
      Except.ok () :=
  ⟨(claim_C9_dlr_init_validation true false true none (some 1) none).2.1.mpr
      (Or.inl ⟨rfl, rfl⟩),
    (claim_C9_dlr_init_validation false false true (some 1) (some 1)
      none).2.2 (by simp)⟩

end DRoemof

namespace DRoemof

/-! ### Claim C4: the DIW compensation constraint and its delay window -/

/-- Under a well-formed delay window (`2 * delay_time < T`, the regime in
which `_create` does not raise), the region-wise window of the source
equals the single interval `max(0, t - L) .. min(T - 1, t + L)` (natural
subtraction renders the `max` with `0`). -/
theorem window_eq_clipped (T L t : ℕ) (ht : t < T) (hL : 2 * L < T) :
    DIW.window T L t = pyRange (t - L) (min (T - 1) (t + L) + 1) := by
  unfold DIW.window
  split_ifs with h1 h2
  · have e1 : t - L = 0 := by omega
    have e2 : min (T - 1) (t + L) = t + L := by omega
    rw [e1, e2]
  · have e2 : min (T - 1) (t + L) = t + L := by omega
    rw [e2]
  · have e2 : min (T - 1) (t + L) + 1 = T := by omega
    rw [e2]

/-- C4: for every DIW delay component with efficiency `eta` and delay time
`L`, and every timestep `t` of the horizon, the generated compensation
constraint (equation 7) equates `dsm_up[t] * eta` with the sum of
`dsm_do_shift[t, tt]` over `tt` from `max(0, t - L)` to `min(T - 1, t + L)`.
The hypotheses `2 * L < T` and `shift_eligibility` delimit the domain on
which the source generates constraints at all (otherwise `_create`
raises). -/
theorem claim_C4_diw_compensation_window (m : Model) (g : DIW.DelayParams)
    (t : ℕ) (ht : t < m.T) (hL : 2 * g.delay_time < m.T)
    (hshift : g.shift_eligibility = true) :
    ∃ cs, DIW.SinkDSMDelayBlock.create m g = Except.ok cs ∧
      Constr.mk
        (Expr.mul (Expr.var (DIW.DelayVar.dsm_up t))
          (Expr.const g.efficiency))
        Rel.eq
        (sumExpr ((pyRange (t - g.delay_time)
          (min (m.T - 1) (t + g.delay_time) + 1)).map
          (fun tt => Expr.var (DIW.DelayVar.dsm_do_shift t tt)))) ∈ cs := by
  refine ⟨DIW.SinkDSMDelayBlock.constraints m g, ?_, ?_⟩
  · unfold DIW.SinkDSMDelayBlock.create
    rw [if_neg ?_, if_neg ?_]
    · intro hc
      omega
    · intro hc
      rw [hshift] at hc
      exact absurd hc.2 (by decide)
  · have hmem : Constr.mk
        (Expr.mul (Expr.var (DIW.DelayVar.dsm_up t))
          (Expr.const g.efficiency))
        Rel.eq
        (sumExpr ((pyRange (t - g.delay_time)
          (min (m.T - 1) (t + g.delay_time) + 1)).map
          (fun tt => Expr.var (DIW.DelayVar.dsm_do_shift t tt)))) ∈
        DIW.dsm_up_down_constraint_rule m g := by
      simp only [DIW.dsm_up_down_constraint_rule, List.mem_map,
        List.mem_range]
      refine ⟨t, ht, ?_⟩
      rw [window_eq_clipped m.T g.delay_time t ht hL]
    simp only [DIW.SinkDSMDelayBlock.constraints, List.mem_append]
    tauto

/-- C4 witness data. -/
def mC4 : Model := Model.mk 4 (fun _ => 1)

def gC4 : DIW.DelayParams :=
  DIW.DelayParams.mk (fun _ => 0) (fun _ => 1) (fun _ => 1) 1 1 1 none 1
    true true

theorem claim_C4_witness :
    1 < mC4.T ∧ 2 * gC4.delay_time < mC4.T ∧
    ∃ cs, DIW.SinkDSMDelayBlock.create mC4 gC4 = Except.ok cs ∧
      Constr.mk
        (Expr.mul (Expr.var (DIW.DelayVar.dsm_up 1))
          (Expr.const gC4.efficiency))
        Rel.eq
        (sumExpr ((pyRange (1 - gC4.delay_time)
          (min (mC4.T - 1) (1 + gC4.delay_time) + 1)).map
          (fun tt => Expr.var (DIW.DelayVar.dsm_do_shift 1 tt)))) ∈ cs :=
  ⟨by decide, by decide,
    claim_C4_diw_compensation_window mC4 gC4 1 (by decide) (by decide) rfl⟩

/-! ### Claim C5: the DLR block versus its docstring -/

/-- Equation (1) as literally written in the `SinkDRBlock` docstring of the
no-shed DLR module (lines 163-166):
`E_t = demand_t + DSM_t^up + DSM_t^balanceDown - DSM_t^down
+ DSM_t^balanceDown`, with the docstring symbols `DSM^up`,
`DSM^balanceDown` and `DSM^down` naming the code variables `dsm_up`,
`balance_dsm_do` and `dsm_do_shift` (the matching fixed by docstring
equations (2)/(3) against `capacity_balance_red`/`..._inc`). -/
def docstringEq1 (g : DLRns.SinkDR) (t : ℕ) : Constr DLRns.DRVar :=
  Constr.mk (Expr.var (DLRns.DRVar.flow t)) Rel.eq
    (Expr.add
      (Expr.sub
        (Expr.add
          (Expr.add (Expr.const (g.demand t))
            (Expr.var (DLRns.DRVar.dsm_up t)))
          (Expr.var (DLRns.DRVar.balance_dsm_do t)))
        (Expr.var (DLRns.DRVar.dsm_do_shift t)))
      (Expr.var (DLRns.DRVar.balance_dsm_do t)))

/-- Equation (1) of the docstring with its second `DSM^balanceDown` term
read as `- DSM^balanceUp` (the code variable `balance_dsm_up`), i.e. the
minimal repair of the docstring typo. -/
def docstringEq1Fixed (g : DLRns.SinkDR) (t : ℕ) : Constr DLRns.DRVar :=
  Constr.mk (Expr.var (DLRns.DRVar.flow t)) Rel.eq
    (Expr.sub
      (Expr.sub
        (Expr.add
          (Expr.add (Expr.const (g.demand t))
            (Expr.var (DLRns.DRVar.dsm_up t)))
          (Expr.var (DLRns.DRVar.balance_dsm_do t)))
        (Expr.var (DLRns.DRVar.dsm_do_shift t)))
      (Expr.var (DLRns.DRVar.balance_dsm_up t)))

/-- C5 counterexample data: a three-timestep model with constant demand 5,
capacities 10, delay time 1 and efficiency 1. -/
def mC5 : Model := Model.mk 3 (fun _ => 1)

def gC5 : DLRns.SinkDR :=
  DLRns.SinkDR.mk (fun _ => 5) (fun _ => 10) (fun _ => 10) 1 1 1 0 0 0 1
    10 10 false false 1 (some 1) 1 false true true false

/-- An assignment with one upward shift at `t = 0`, balanced at `t = 1`:
it satisfies every generated constraint of the block but violates the
docstring equation (1) at `t = 1`. -/
def sigmaC5 : DLRns.DRVar → ℚ
  | DLRns.DRVar.flow 0 => 6
  | DLRns.DRVar.flow 1 => 4
  | DLRns.DRVar.flow 2 => 5
  | DLRns.DRVar.dsm_up 0 => 1
  | DLRns.DRVar.balance_dsm_up 1 => 1
  | DLRns.DRVar.dsm_up_level 0 => 1
  | _ => 0

/-- C5 counterexample: the constraint system generated by
`SinkDRBlock._create` does not coincide with the docstring formulation:
an assignment satisfying every generated constraint violates the
docstring's equation (1) at `t = 1` (the docstring has
`+ DSM^balanceDown` where the code subtracts `balance_dsm_up`). -/
theorem claim_C5_counterexample :
    (∀ c ∈ DLRns.SinkDRBlock.constraints mC5 gC5, c.holds sigmaC5) ∧
    ¬ (docstringEq1 gC5 1).holds sigmaC5 := by
  have h1 : ∀ c ∈ DLRns.SinkDRBlock.constraints mC5 gC5,
      c.holds sigmaC5 := by
    intro c hc
    fin_cases hc <;>
      norm_num [Constr.holds, Expr.eval, sigmaC5, gC5, mC5]
  have h2 : ¬ (docstringEq1 gC5 1).holds sigmaC5 := by
    norm_num [docstringEq1, Constr.holds, Expr.eval, sigmaC5, gC5]
  exact ⟨h1, h2⟩

/-- C5 amended: the generated demand-balance constraint of the DLR
`SinkDRBlock` at every timestep `t` equals the docstring equation (1) with
its second `DSM^balanceDown` term corrected to `- DSM^balanceUp`. -/
theorem claim_C5_dlr_balance_amended (m : Model) (g : DLRns.SinkDR) (t : ℕ)
    (ht : t < m.T) :
    docstringEq1Fixed g t ∈ DLRns.SinkDRBlock.constraints m g := by
  have hmem : docstringEq1Fixed g t ∈ DLRns.dr_input_output_relation_rule m g := by
    simp only [DLRns.dr_input_output_relation_rule, List.mem_map,
      List.mem_range]
    exact ⟨t, ht, rfl⟩
  simp only [DLRns.SinkDRBlock.constraints, List.mem_append]
  tauto

theorem claim_C5_witness :
    1 < mC5.T ∧
    docstringEq1Fixed gC5 1 ∈ DLRns.SinkDRBlock.constraints mC5 gC5 :=
  ⟨by decide, claim_C5_dlr_balance_amended mC5 gC5 1 (by decide)⟩

end DRoemof

namespace DRoemof

/-! ### Claim C1: every generated constraint is linear -/

theorem eval_sumExpr_map_var {V α : Type} (σ : V → ℚ) (l : List α)
    (f : α → V) :
    (sumExpr (l.map (fun x => Expr.var (f x)))).eval σ =
      (l.map (fun x => σ (f x))).sum := by
  rw [eval_sumExpr, List.map_map]
  rfl

/-- Both sides of every constraint of the DIW interval block have degree at
most 1 in the decision variables. -/
theorem degs_diw_interval (m : Model) (g : DIW.IntervalParams) :
    ∀ c ∈ DIW.SinkDSMIntervalBlock.constraints m g,
      c.lhs.deg ≤ 1 ∧ c.rhs.deg ≤ 1 := by
  intro c hc
  simp only [DIW.SinkDSMIntervalBlock.constraints, List.mem_append] at hc
  rcases hc with ((hc | hc) | hc) | hc
  · simp only [DIW.interval_input_output_relation_rule, List.mem_map,
      List.mem_range] at hc
    obtain ⟨t, _, rfl⟩ := hc
    exact ⟨by simp [Expr.deg], by simp [Expr.deg]⟩
  · simp only [DIW.interval_dsm_up_constraint_rule, List.mem_map,
      List.mem_range] at hc
    obtain ⟨t, _, rfl⟩ := hc
    exact ⟨by simp [Expr.deg], by simp [Expr.deg]⟩
  · simp only [DIW.interval_dsm_down_constraint_rule, List.mem_map,
      List.mem_range] at hc
    obtain ⟨t, _, rfl⟩ := hc
    exact ⟨by simp [Expr.deg], by simp [Expr.deg]⟩
  · simp only [DIW.interval_dsm_sum_constraint_rule, List.mem_map] at hc
    obtain ⟨i, _, rfl⟩ := hc
    constructor
    · have h := deg_sumExpr_map_le
        (DIW.intervalTimesteps m.T g.shift_interval i)
        (fun tt => Expr.var (DIW.IntervalVar.dsm_up tt))
        (fun tt => by simp [Expr.deg])
      simp only [Expr.deg]
      omega
    · exact deg_sumExpr_map_le _ _ (fun tt => by simp [Expr.deg])

/-- Both sides of every constraint of the DIW delay block have degree at
most 1 in the decision variables. -/
theorem degs_diw_delay (m : Model) (g : DIW.DelayParams) :
    ∀ c ∈ DIW.SinkDSMDelayBlock.constraints m g,
      c.lhs.deg ≤ 1 ∧ c.rhs.deg ≤ 1 := by
  intro c hc
  simp only [DIW.SinkDSMDelayBlock.constraints, List.mem_append] at hc
  rcases hc with ((((((hc | hc) | hc) | hc) | hc) | hc) | hc) | hc
  · simp only [DIW.delay_shift_shed_vars_rule, List.mem_filterMap,
      List.mem_range] at hc
    obtain ⟨t, _, hf⟩ := hc
    split_ifs at hf
    simp only [Option.some.injEq] at hf
    subst hf
    exact ⟨by simp [Expr.deg], by simp [Expr.deg]⟩
  · simp only [DIW.delay_input_output_relation_rule, List.mem_map,
      List.mem_range] at hc
    obtain ⟨t, _, rfl⟩ := hc
    refine ⟨by simp [Expr.deg], ?_⟩
    have h := deg_sumExpr_map_le (DIW.window m.T g.delay_time t)
      (fun tt => Expr.var (DIW.DelayVar.dsm_do_shift tt t))
      (fun tt => by simp [Expr.deg])
    simp only [Expr.deg]
    omega
  · simp only [DIW.dsm_up_down_constraint_rule, List.mem_map,
      List.mem_range] at hc
    obtain ⟨t, _, rfl⟩ := hc
    refine ⟨by simp [Expr.deg], ?_⟩
    exact deg_sumExpr_map_le _ _ (fun tt => by simp [Expr.deg])
  · simp only [DIW.dsm_up_constraint_rule, List.mem_map,
      List.mem_range] at hc
    obtain ⟨t, _, rfl⟩ := hc
    exact ⟨by simp [Expr.deg], by simp [Expr.deg]⟩
  · simp only [DIW.dsm_do_constraint_rule, List.mem_filterMap,
      List.mem_range] at hc
    obtain ⟨tt, _, hf⟩ := hc
    split_ifs at hf <;> simp only [Option.some.injEq] at hf <;> subst hf
    · refine ⟨?_, by simp [Expr.deg]⟩
      exact deg_sumExpr_map_le _ _ (fun t2 => by simp [Expr.deg])
    · refine ⟨?_, by simp [Expr.deg]⟩
      have h := deg_sumExpr_map_le (DIW.window m.T g.delay_time tt)
        (fun t2 => Expr.var (DIW.DelayVar.dsm_do_shift t2 tt))
        (fun t2 => by simp [Expr.deg])
      simp only [Expr.deg]
      omega
  · simp only [DIW.c2_constraint_rule, List.mem_map, List.mem_range] at hc
    obtain ⟨tt, _, rfl⟩ := hc
    refine ⟨?_, by simp [Expr.deg]⟩
    have h := deg_sumExpr_map_le (DIW.window m.T g.delay_time tt)
      (fun t2 => Expr.var (DIW.DelayVar.dsm_do_shift t2 tt))
      (fun t2 => by simp [Expr.deg])
    simp only [Expr.deg]
    omega
  · simp only [DIW.recovery_constraint_rule, List.mem_filterMap,
      List.mem_range] at hc
    obtain ⟨t, _, hf⟩ := hc
    cases hR : g.recovery_time_shift with
    | none =>
        rw [hR] at hf
        simp at hf
    | some R =>
        rw [hR] at hf
        simp only [] at hf
        split_ifs at hf <;> simp only [Option.some.injEq] at hf <;>
          subst hf <;>
          exact ⟨deg_sumExpr_map_le _ _ (fun t2 => by simp [Expr.deg]),
            by simp [Expr.deg]⟩
  · simp only [DIW.shed_limit_constraint_rule, List.mem_filterMap,
      List.mem_range] at hc
    obtain ⟨t, _, hf⟩ := hc
    split_ifs at hf <;> simp only [Option.some.injEq] at hf <;> subst hf <;>
      exact ⟨deg_sumExpr_map_le _ _ (fun t2 => by simp [Expr.deg]),
        by simp [Expr.deg]⟩

/-- Both sides of every constraint of the IER block have degree at most 1
in the decision variables. -/
theorem degs_ier (m : Model) (g : IER.SinkDSI) :
    ∀ c ∈ IER.SinkDSIBlock.constraints m g,
      c.lhs.deg ≤ 1 ∧ c.rhs.deg ≤ 1 := by
  intro c hc
  simp only [IER.SinkDSIBlock.constraints, List.mem_append] at hc
  rcases hc with ((((((((((hc | hc) | hc) | hc) | hc) | hc) | hc) | hc) |
    hc) | hc) | hc) | hc
  · simp only [IER.dsi_shift_shed_vars_rule, List.mem_append,
      List.mem_filterMap, List.mem_range] at hc
    rcases hc with ⟨t, _, hf⟩ | ⟨t, _, hf⟩ <;> split_ifs at hf <;>
      simp only [Option.some.injEq] at hf <;> subst hf <;>
      exact ⟨by simp [Expr.deg], by simp [Expr.deg]⟩
  · simp only [IER.dsi_input_output_relation_rule, List.mem_map,
      List.mem_range] at hc
    obtain ⟨t, _, rfl⟩ := hc
    exact ⟨by simp [Expr.deg], by simp [Expr.deg]⟩
  · simp only [IER.dsi_availability_down_rule, List.mem_map,
      List.mem_range] at hc
    obtain ⟨t, _, rfl⟩ := hc
    exact ⟨by simp [Expr.deg], by simp [Expr.deg]⟩
  · simp only [IER.dsi_availability_up_rule, List.mem_map,
      List.mem_range] at hc
    obtain ⟨t, _, rfl⟩ := hc
    exact ⟨by simp [Expr.deg], by simp [Expr.deg]⟩
  · simp only [IER.dsi_energy_balance_rule, List.mem_map,
      List.mem_range] at hc
    obtain ⟨t, _, rfl⟩ := hc
    split_ifs <;>
      exact ⟨deg_sumExpr_map_le _ _ (fun tt => by simp [Expr.deg]),
        deg_sumExpr_map_le _ _ (fun tt => by simp [Expr.deg])⟩
  · simp only [IER.dsi_shifting_limit_down_rule, List.mem_map,
      List.mem_range] at hc
    obtain ⟨t, _, rfl⟩ := hc
    split_ifs <;>
      exact ⟨deg_sumExpr_map_le _ _ (fun tt => by simp [Expr.deg]),
        by simp [Expr.deg]⟩
  · simp only [IER.dsi_shedding_limit_rule, List.mem_map,
      List.mem_range] at hc
    obtain ⟨t, _, rfl⟩ := hc
    split_ifs <;>
      exact ⟨deg_sumExpr_map_le _ _ (fun tt => by simp [Expr.deg]),
        by simp [Expr.deg]⟩
  · simp only [IER.dsi_shifting_limit_up_rule, List.mem_map,
      List.mem_range] at hc
    obtain ⟨t, _, rfl⟩ := hc
    split_ifs <;>
      exact ⟨deg_sumExpr_map_le _ _ (fun tt => by simp [Expr.deg]),
        by simp [Expr.deg]⟩
  · simp only [IER.dsi_overall_energy_limit_down_rule,
      List.mem_singleton] at hc
    subst hc
    exact ⟨deg_sumExpr_map_le _ _ (fun t => by simp [Expr.deg]),
      by simp [Expr.deg]⟩
  · simp only [IER.dsi_overall_shedding_limit_rule,
      List.mem_singleton] at hc
    subst hc
    exact ⟨deg_sumExpr_map_le _ _ (fun t => by simp [Expr.deg]),
      by simp [Expr.deg]⟩
  · simp only [IER.dsi_overall_energy_limit_up_rule,
      List.mem_singleton] at hc
    subst hc
    exact ⟨deg_sumExpr_map_le _ _ (fun t => by simp [Expr.deg]),
      by simp [Expr.deg]⟩
  · simp only [IER.dsi_logic_rule, List.mem_filterMap,
      List.mem_range] at hc
    obtain ⟨t, _, hf⟩ := hc
    split_ifs at hf
    simp only [Option.some.injEq] at hf
    subst hf
    exact ⟨by simp [Expr.deg], by simp [Expr.deg]⟩

end DRoemof

namespace DRoemof

/-- Both sides of every constraint of the DLR block have degree at most 1
in the decision variables. -/
theorem degs_dlr (m : Model) (g : DLRns.SinkDR) :
    ∀ c ∈ DLRns.SinkDRBlock.constraints m g,
      c.lhs.deg ≤ 1 ∧ c.rhs.deg ≤ 1 := by
  intro c hc
  simp only [DLRns.SinkDRBlock.constraints, List.mem_append] at hc
  rcases hc with (((((((((((((hc | hc) | hc) | hc) | hc) | hc) | hc) | hc) |
    hc) | hc) | hc) | hc) | hc) | hc) | hc
  · simp only [DLRns.dr_shift_shed_vars_rule, List.mem_filterMap,
      List.mem_range] at hc
    obtain ⟨t, _, hf⟩ := hc
    split_ifs at hf
    simp only [Option.some.injEq] at hf
    subst hf
    exact ⟨by simp [Expr.deg], by simp [Expr.deg]⟩
  · simp only [DLRns.dr_input_output_relation_rule, List.mem_map,
      List.mem_range] at hc
    obtain ⟨t, _, rfl⟩ := hc
    exact ⟨by simp [Expr.deg], by simp [Expr.deg]⟩
  · simp only [DLRns.capacity_balance_red_rule, List.mem_filterMap,
      List.mem_range] at hc
    obtain ⟨t, _, hf⟩ := hc
    split_ifs at hf <;> simp only [Option.some.injEq] at hf <;> subst hf <;>
      exact ⟨by simp [Expr.deg], by simp [Expr.deg]⟩
  · simp only [DLRns.capacity_balance_inc_rule, List.mem_filterMap,
      List.mem_range] at hc
    obtain ⟨t, _, hf⟩ := hc
    split_ifs at hf <;> simp only [Option.some.injEq] at hf <;> subst hf <;>
      exact ⟨by simp [Expr.deg], by simp [Expr.deg]⟩
  · simp only [DLRns.availability_red_rule, List.mem_map,
      List.mem_range] at hc
    obtain ⟨t, _, rfl⟩ := hc
    exact ⟨by simp [Expr.deg], by simp [Expr.deg]⟩
  · simp only [DLRns.availability_inc_rule, List.mem_map,
      List.mem_range] at hc
    obtain ⟨t, _, rfl⟩ := hc
    exact ⟨by simp [Expr.deg], by simp [Expr.deg]⟩
  · simp only [DLRns.dr_storage_red_rule, List.mem_map,
      List.mem_range] at hc
    obtain ⟨t, _, rfl⟩ := hc
    split_ifs <;> exact ⟨by simp [Expr.deg], by simp [Expr.deg]⟩
  · simp only [DLRns.dr_storage_inc_rule, List.mem_map,
      List.mem_range] at hc
    obtain ⟨t, _, rfl⟩ := hc
    split_ifs <;> exact ⟨by simp [Expr.deg], by simp [Expr.deg]⟩
  · simp only [DLRns.dr_storage_limit_red_rule, List.mem_map,
      List.mem_range] at hc
    obtain ⟨t, _, rfl⟩ := hc
    exact ⟨by simp [Expr.deg], by simp [Expr.deg]⟩
  · simp only [DLRns.dr_storage_limit_inc_rule, List.mem_map,
      List.mem_range] at hc
    obtain ⟨t, _, rfl⟩ := hc
    exact ⟨by simp [Expr.deg], by simp [Expr.deg]⟩
  · simp only [DLRns.dr_yearly_limit_red_rule] at hc
    split_ifs at hc
    · simp only [List.mem_singleton] at hc
      subst hc
      exact ⟨deg_sumExpr_map_le _ _ (fun t => by simp [Expr.deg]),
        by simp [Expr.deg]⟩
    · simp at hc
  · simp only [DLRns.dr_yearly_limit_inc_rule] at hc
    split_ifs at hc
    · simp only [List.mem_singleton] at hc
      subst hc
      exact ⟨deg_sumExpr_map_le _ _ (fun t => by simp [Expr.deg]),
        by simp [Expr.deg]⟩
    · simp at hc
  · simp only [DLRns.dr_daily_limit_red_rule, List.mem_filterMap,
      List.mem_range] at hc
    obtain ⟨t, _, hf⟩ := hc
    split_ifs at hf
    simp only [Option.some.injEq] at hf
    subst hf
    refine ⟨by simp [Expr.deg], ?_⟩
    have h := deg_sumExpr_map_le (List.range g.t_dayLimit)
      (fun td => Expr.var (DLRns.DRVar.dsm_do_shift (t - td)))
      (fun td => by simp [Expr.deg])
    simp only [Expr.deg]
    omega
  · simp only [DLRns.dr_daily_limit_inc_rule, List.mem_filterMap,
      List.mem_range] at hc
    obtain ⟨t, _, hf⟩ := hc
    split_ifs at hf
    simp only [Option.some.injEq] at hf
    subst hf
    refine ⟨by simp [Expr.deg], ?_⟩
    have h := deg_sumExpr_map_le (List.range g.t_dayLimit)
      (fun td => Expr.var (DLRns.DRVar.dsm_up (t - td)))
      (fun td => by simp [Expr.deg])
    simp only [Expr.deg]
    omega
  · simp only [DLRns.dr_logical_constraint_rule, List.mem_filterMap,
      List.mem_range] at hc
    obtain ⟨t, _, hf⟩ := hc
    split_ifs at hf
    simp only [Option.some.injEq] at hf
    subst hf
    exact ⟨by simp [Expr.deg], by simp [Expr.deg]⟩

/-- Both sides of every constraint of the TUD block have degree at most 1
in the decision variables. -/
theorem degs_tud (m : Model) (g : TUD.SinkDSM) :
    ∀ c ∈ TUD.SinkDSMBlock.constraints m g,
      c.lhs.deg ≤ 1 ∧ c.rhs.deg ≤ 1 := by
  intro c hc
  simp only [TUD.SinkDSMBlock.constraints, List.mem_append] at hc
  rcases hc with (((((((((hc | hc) | hc) | hc) | hc) | hc) | hc) | hc) |
    hc) | hc) | hc
  · simp only [TUD.tud_shift_shed_vars_rule, List.mem_append,
      List.mem_filterMap, List.mem_range] at hc
    rcases hc with ⟨t, _, hf⟩ | ⟨t, _, hf⟩ <;> split_ifs at hf <;>
      simp only [Option.some.injEq] at hf <;> subst hf <;>
      exact ⟨by simp [Expr.deg], by simp [Expr.deg]⟩
  · simp only [TUD.tud_input_output_relation_rule, List.mem_map,
      List.mem_range] at hc
    obtain ⟨t, _, rfl⟩ := hc
    exact ⟨by simp [Expr.deg], by simp [Expr.deg]⟩
  · simp only [TUD.dsm_availability_down_rule, List.mem_map,
      List.mem_range] at hc
    obtain ⟨t, _, rfl⟩ := hc
    exact ⟨by simp [Expr.deg], by simp [Expr.deg]⟩
  · simp only [TUD.dsm_availability_up_rule, List.mem_map,
      List.mem_range] at hc
    obtain ⟨t, _, rfl⟩ := hc
    exact ⟨by simp [Expr.deg], by simp [Expr.deg]⟩
  · simp only [TUD.dsm_storage_level_rule, List.mem_map,
      List.mem_range] at hc
    obtain ⟨t, _, rfl⟩ := hc
    split_ifs <;> exact ⟨by simp [Expr.deg], by simp [Expr.deg]⟩
  · simp only [TUD.dsm_storage_balanced_rule, List.mem_append,
      List.mem_map] at hc
    rcases hc with ⟨i, _, rfl⟩ | ⟨t, _, rfl⟩ <;>
      exact ⟨by simp [Expr.deg], by simp [Expr.deg]⟩
  · simp only [TUD.dsm_day_limit_rule, List.mem_map] at hc
    obtain ⟨day, _, rfl⟩ := hc
    exact ⟨deg_sumExpr_map_le _ _ (fun t => by simp [Expr.deg]),
      by simp [Expr.deg]⟩
  · simp only [TUD.dsm_down_limit_rule, List.mem_filterMap,
      List.mem_range] at hc
    obtain ⟨t, _, hf⟩ := hc
    split_ifs at hf
    simp only [Option.some.injEq] at hf
    subst hf
    exact ⟨by simp [Expr.deg], by simp [Expr.deg]⟩
  · simp only [TUD.dsm_shed_limit_year_rule, List.mem_singleton] at hc
    subst hc
    exact ⟨deg_sumExpr_map_le _ _ (fun t => by simp [Expr.deg]),
      by simp [Expr.deg]⟩
  · simp only [TUD.dsm_shed_limit_day_rule, List.mem_map] at hc
    obtain ⟨day, _, rfl⟩ := hc
    exact ⟨deg_sumExpr_map_le _ _ (fun t => by simp [Expr.deg]),
      by simp [Expr.deg]⟩
  · simp only [TUD.dsm_logic_rule, List.mem_filterMap,
      List.mem_range] at hc
    obtain ⟨t, _, hf⟩ := hc
    split_ifs at hf
    simp only [Option.some.injEq] at hf
    subst hf
    exact ⟨by simp [Expr.deg], by simp [Expr.deg]⟩

/-- C1: every constraint added by the constraint blocks' `_create` methods
(DIW `SinkDSMIntervalBlock` and `SinkDSMDelayBlock`, IER `SinkDSIBlock`,
DLR `SinkDRBlock`, TUD `SinkDSMBlock`) is a linear equality or inequality:
both sides evaluate to affine functions of the time-indexed decision
variables (the coefficients and constants are, by construction of the
embedded rules, built only from the component parameters and the model's
time increments). -/
theorem claim_C1_all_constraints_linear :
    (∀ (m : Model) (g : DIW.IntervalParams) cs,
      DIW.SinkDSMIntervalBlock.create m g = Except.ok cs →
      ∀ c ∈ cs, c.Linear) ∧
    (∀ (m : Model) (g : DIW.DelayParams) cs,
      DIW.SinkDSMDelayBlock.create m g = Except.ok cs →
      ∀ c ∈ cs, c.Linear) ∧
    (∀ (m : Model) (g : IER.SinkDSI),
      ∀ c ∈ IER.SinkDSIBlock.constraints m g, c.Linear) ∧
    (∀ (m : Model) (g : DLRns.SinkDR),
      ∀ c ∈ DLRns.SinkDRBlock.constraints m g, c.Linear) ∧
    (∀ (m : Model) (g : TUD.SinkDSM) cs,
      TUD.SinkDSMBlock.create m g = Except.ok cs →
      ∀ c ∈ cs, c.Linear) := by
  refine ⟨?_, ?_, ?_, ?_, ?_⟩
  · intro m g cs hok c hc
    unfold DIW.SinkDSMIntervalBlock.create at hok
    split_ifs at hok
    simp only [Except.ok.injEq] at hok
    subst hok
    have h := degs_diw_interval m g c hc
    exact linear_of_degs h.1 h.2
  · intro m g cs hok c hc
    unfold DIW.SinkDSMDelayBlock.create at hok
    split_ifs at hok
    simp only [Except.ok.injEq] at hok
    subst hok
    have h := degs_diw_delay m g c hc
    exact linear_of_degs h.1 h.2
  · intro m g c hc
    have h := degs_ier m g c hc
    exact linear_of_degs h.1 h.2
  · intro m g c hc
    have h := degs_dlr m g c hc
    exact linear_of_degs h.1 h.2
  · intro m g cs hok c hc
    unfold TUD.SinkDSMBlock.create at hok
    split_ifs at hok
    simp only [Except.ok.injEq] at hok
    subst hok
    have h := degs_tud m g c hc
    exact linear_of_degs h.1 h.2

/-- C1 witness data. -/
def mC1 : Model := Model.mk 3 (fun _ => 1)

def gC1delay : DIW.DelayParams :=
  DIW.DelayParams.mk (fun _ => 0) (fun _ => 1) (fun _ => 1) 1 1 1 none 1
    true true

def gC1ier : IER.SinkDSI :=
  IER.SinkDSI.mk (fun _ => 0) (fun _ => 1) (fun _ => 1) 1 1 1 1 1 1 0 0 0 1
    true true true

theorem claim_C1_witness :
    DIW.SinkDSMDelayBlock.create mC1 gC1delay =
      Except.ok (DIW.SinkDSMDelayBlock.constraints mC1 gC1delay) ∧
    (∀ c ∈ DIW.SinkDSMDelayBlock.constraints mC1 gC1delay, c.Linear) ∧
    (∀ c ∈ IER.SinkDSIBlock.constraints mC1 gC1ier, c.Linear) := by
  have hok : DIW.SinkDSMDelayBlock.create mC1 gC1delay =
      Except.ok (DIW.SinkDSMDelayBlock.constraints mC1 gC1delay) := rfl
  exact ⟨hok,
    claim_C1_all_constraints_linear.2.1 mC1 gC1delay _ hok,
    fun c hc => claim_C1_all_constraints_linear.2.2.1 mC1 gC1ier c hc⟩

end DRoemof

namespace DRoemof

/-! ### Claim C3: capacity limits as per-timestep upper bounds -/

/-- C3 counterexample data: a valid shed-only DIW delay component (it
passes `constraint_group`), for which `_create` nevertheless fails, so no
downward capacity bound is generated at all. -/
def mC3 : Model := Model.mk 3 (fun _ => 1)

def gC3 : DIW.DelayParams :=
  DIW.DelayParams.mk (fun _ => 0) (fun _ => 10) (fun _ => 1) 1 1 1 none 1
    true false

/-- C3 counterexample: for the eligibility setting `shed_eligibility =
True`, `shift_eligibility = False`, the DIW delay block generates no
constraint set whatsoever (its first rule indexes the three-dimensional
`dsm_do_shift` with two indices and raises), so in particular no constraint
bounds the downward load adjustment by `capacity_down[t]`; and even the
rule meant to produce that bound (`dsm_do_constraint_rule`) is an explicit
`pass` in this case. -/
theorem claim_C3_counterexample :
    gC3.shed_eligibility = true ∧ gC3.shift_eligibility = false ∧
    DIW.SinkDSMDelayBlock.create mC3 gC3 =
      Except.error "KeyError: dsm_do_shift indexed with two indices" ∧
    DIW.dsm_do_constraint_rule mC3 gC3 = [] :=
  ⟨rfl, rfl, rfl, rfl⟩

/-- C3 amended: in every formulation, every assignment satisfying the
generated constraint set obeys, at every timestep `t`, the upward bound
`dsm_up[t] <= capacity_up[t]` and the downward bound (downward shift plus
shedding where a shedding variable exists) `<= capacity_down[t]` — for the
DIW delay method under the proviso that the component is shift-eligible
(otherwise `_create` generates nothing), the downward shift at `t` being
its delay-window sum. -/
theorem claim_C3_amended :
    (∀ (m : Model) (g : DIW.DelayParams) cs (σ : DIW.DelayVar → ℚ) (t : ℕ),
      DIW.SinkDSMDelayBlock.create m g = Except.ok cs →
      (∀ c ∈ cs, c.holds σ) → t < m.T →
      σ (DIW.DelayVar.dsm_up t) ≤ g.capacity_up t ∧
      ((DIW.window m.T g.delay_time t).map
        (fun t2 => σ (DIW.DelayVar.dsm_do_shift t2 t))).sum +
        σ (DIW.DelayVar.dsm_do_shed t) ≤ g.capacity_down t) ∧
    (∀ (m : Model) (g : IER.SinkDSI) (σ : IER.DSIVar → ℚ) (t : ℕ),
      (∀ c ∈ IER.SinkDSIBlock.constraints m g, c.holds σ) → t < m.T →
      σ (IER.DSIVar.dsm_up t) ≤ g.capacity_up t ∧
      σ (IER.DSIVar.dsm_do_shift t) + σ (IER.DSIVar.dsm_do_shed t) ≤
        g.capacity_down t) ∧
    (∀ (m : Model) (g : DLRns.SinkDR) (σ : DLRns.DRVar → ℚ) (t : ℕ),
      (∀ c ∈ DLRns.SinkDRBlock.constraints m g, c.holds σ) →
      (∀ v, 0 ≤ σ v) → t < m.T →
      σ (DLRns.DRVar.dsm_up t) ≤ g.capacity_up t ∧
      σ (DLRns.DRVar.dsm_do_shift t) ≤ g.capacity_down t) ∧
    (∀ (m : Model) (g : TUD.SinkDSM) cs (σ : TUD.TUDVar → ℚ) (t : ℕ),
      TUD.SinkDSMBlock.create m g = Except.ok cs →
      (∀ c ∈ cs, c.holds σ) → t < m.T →
      σ (TUD.TUDVar.dsm_up t) ≤ g.capacity_up t ∧
      σ (TUD.TUDVar.dsm_do_shift t) + σ (TUD.TUDVar.dsm_do_shed t) ≤
        g.capacity_down t) := by
  refine ⟨?_, ?_, ?_, ?_⟩
  · intro m g cs σ t hok hsat hT
    unfold DIW.SinkDSMDelayBlock.create at hok
    split_ifs at hok with h1 h2
    simp only [Except.ok.injEq] at hok
    subst hok
    have hshift : g.shift_eligibility = true := by
      cases hs : g.shift_eligibility
      · exact absurd ⟨by omega, hs⟩ h1
      · rfl
    constructor
    · have hmem : Constr.mk (Expr.var (DIW.DelayVar.dsm_up t)) Rel.le
          (Expr.const (g.capacity_up t)) ∈
          DIW.dsm_up_constraint_rule m g := by
        simp only [DIW.dsm_up_constraint_rule, List.mem_map, List.mem_range]
        exact ⟨t, hT, rfl⟩
      have h := hsat _ (List.mem_append_left _ (List.mem_append_left _
        (List.mem_append_left _ (List.mem_append_left _
          (List.mem_append_right _ hmem)))))
      simpa [Constr.holds, Expr.eval] using h
    · cases hshed : g.shed_eligibility
      · have hmem1 : Constr.mk
            (sumExpr ((DIW.window m.T g.delay_time t).map
              (fun t2 => Expr.var (DIW.DelayVar.dsm_do_shift t2 t))))
            Rel.le (Expr.const (g.capacity_down t)) ∈
            DIW.dsm_do_constraint_rule m g := by
          simp only [DIW.dsm_do_constraint_rule, List.mem_filterMap,
            List.mem_range]
          refine ⟨t, hT, ?_⟩
          rw [if_pos ⟨hshed, hshift⟩]
        have hmem2 : Constr.mk (Expr.var (DIW.DelayVar.dsm_do_shed t))
            Rel.eq (Expr.const 0) ∈
            DIW.delay_shift_shed_vars_rule m g := by
          simp only [DIW.delay_shift_shed_vars_rule, List.mem_filterMap,
            List.mem_range]
          refine ⟨t, hT, ?_⟩
          rw [if_neg (by simp [hshed])]
        have ha := hsat _ (List.mem_append_left _ (List.mem_append_left _
          (List.mem_append_left _ (List.mem_append_right _ hmem1))))
        have hb := hsat _ (List.mem_append_left _ (List.mem_append_left _
          (List.mem_append_left _ (List.mem_append_left _
            (List.mem_append_left _ (List.mem_append_left _
              (List.mem_append_left _ hmem2)))))))
        simp only [Constr.holds, Expr.eval, eval_sumExpr_map_var] at ha hb
        rw [hb, add_zero]
        exact ha
      · have hmem : Constr.mk
            (Expr.add
              (sumExpr ((DIW.window m.T g.delay_time t).map
                (fun t2 => Expr.var (DIW.DelayVar.dsm_do_shift t2 t))))
              (Expr.var (DIW.DelayVar.dsm_do_shed t)))
            Rel.le (Expr.const (g.capacity_down t)) ∈
            DIW.dsm_do_constraint_rule m g := by
          simp only [DIW.dsm_do_constraint_rule, List.mem_filterMap,
            List.mem_range]
          refine ⟨t, hT, ?_⟩
          rw [if_neg (by simp [hshed]), if_pos ⟨hshed, hshift⟩]
        have h := hsat _ (List.mem_append_left _ (List.mem_append_left _
          (List.mem_append_left _ (List.mem_append_right _ hmem))))
        simpa [Constr.holds, Expr.eval, eval_sumExpr_map_var] using h
  · intro m g σ t hsat hT
    constructor
    · have hmem : Constr.mk (Expr.var (IER.DSIVar.dsm_up t)) Rel.le
          (Expr.const (g.capacity_up t)) ∈
          IER.dsi_availability_up_rule m g := by
        simp only [IER.dsi_availability_up_rule, List.mem_map,
          List.mem_range]
        exact ⟨t, hT, rfl⟩
      have h := hsat _ (List.mem_append_left _ (List.mem_append_left _
        (List.mem_append_left _ (List.mem_append_left _
          (List.mem_append_left _ (List.mem_append_left _
            (List.mem_append_left _ (List.mem_append_left _
              (List.mem_append_right _ hmem)))))))))
      simpa [Constr.holds, Expr.eval] using h
    · have hmem : Constr.mk
          (Expr.add (Expr.var (IER.DSIVar.dsm_do_shift t))
            (Expr.var (IER.DSIVar.dsm_do_shed t)))
          Rel.le (Expr.const (g.capacity_down t)) ∈
          IER.dsi_availability_down_rule m g := by
        simp only [IER.dsi_availability_down_rule, List.mem_map,
          List.mem_range]
        exact ⟨t, hT, rfl⟩
      have h := hsat _ (List.mem_append_left _ (List.mem_append_left _
        (List.mem_append_left _ (List.mem_append_left _
          (List.mem_append_left _ (List.mem_append_left _
            (List.mem_append_left _ (List.mem_append_left _
              (List.mem_append_left _ (List.mem_append_right _
                hmem))))))))))
      simpa [Constr.holds, Expr.eval] using h
  · intro m g σ t hsat hpos hT
    constructor
    · have hmem : Constr.mk
          (Expr.add (Expr.var (DLRns.DRVar.dsm_up t))
            (Expr.var (DLRns.DRVar.balance_dsm_do t)))
          Rel.le (Expr.const (g.capacity_up t)) ∈
          DLRns.availability_inc_rule m g := by
        simp only [DLRns.availability_inc_rule, List.mem_map,
          List.mem_range]
        exact ⟨t, hT, rfl⟩
      have h := hsat _ (List.mem_append_left _ (List.mem_append_left _
        (List.mem_append_left _ (List.mem_append_left _
          (List.mem_append_left _ (List.mem_append_left _
            (List.mem_append_left _ (List.mem_append_left _
              (List.mem_append_left _ (List.mem_append_right _
                hmem))))))))))
      simp only [Constr.holds, Expr.eval] at h
      have hb := hpos (DLRns.DRVar.balance_dsm_do t)
      linarith
    · have hmem : Constr.mk
          (Expr.add (Expr.var (DLRns.DRVar.dsm_do_shift t))
            (Expr.var (DLRns.DRVar.balance_dsm_up t)))
          Rel.le (Expr.const (g.capacity_down t)) ∈
          DLRns.availability_red_rule m g := by
        simp only [DLRns.availability_red_rule, List.mem_map,
          List.mem_range]
        exact ⟨t, hT, rfl⟩
      have h := hsat _ (List.mem_append_left _ (List.mem_append_left _
        (List.mem_append_left _ (List.mem_append_left _
          (List.mem_append_left _ (List.mem_append_left _
            (List.mem_append_left _ (List.mem_append_left _
              (List.mem_append_left _ (List.mem_append_left _
                (List.mem_append_right _ hmem)))))))))))
      simp only [Constr.holds, Expr.eval] at h
      have hb := hpos (DLRns.DRVar.balance_dsm_up t)
      linarith
  · intro m g cs σ t hok hsat hT
    unfold TUD.SinkDSMBlock.create at hok
    split_ifs at hok
    simp only [Except.ok.injEq] at hok
    subst hok
    constructor
    · have hmem : Constr.mk (Expr.var (TUD.TUDVar.dsm_up t)) Rel.le
          (Expr.const (g.capacity_up t)) ∈
          TUD.dsm_availability_up_rule m g := by
        simp only [TUD.dsm_availability_up_rule, List.mem_map,
          List.mem_range]
        exact ⟨t, hT, rfl⟩
      have h := hsat _ (List.mem_append_left _ (List.mem_append_left _
        (List.mem_append_left _ (List.mem_append_left _
          (List.mem_append_left _ (List.mem_append_left _
            (List.mem_append_left _ (List.mem_append_right _
              hmem))))))))
      simpa [Constr.holds, Expr.eval] using h
    · have hmem : Constr.mk
          (Expr.add (Expr.var (TUD.TUDVar.dsm_do_shift t))
            (Expr.var (TUD.TUDVar.dsm_do_shed t)))
          Rel.le (Expr.const (g.capacity_down t)) ∈
          TUD.dsm_availability_down_rule m g := by
        simp only [TUD.dsm_availability_down_rule, List.mem_map,
          List.mem_range]
        exact ⟨t, hT, rfl⟩
      have h := hsat _ (List.mem_append_left _ (List.mem_append_left _
        (List.mem_append_left _ (List.mem_append_left _
          (List.mem_append_left _ (List.mem_append_left _
            (List.mem_append_left _ (List.mem_append_left _
              (List.mem_append_right _ hmem)))))))))
      simpa [Constr.holds, Expr.eval] using h

/-- C3 witness data: an IER component with zero demand, under the all-zero
assignment. -/
def mC3w : Model := Model.mk 2 (fun _ => 1)

def gC3w : IER.SinkDSI :=
  IER.SinkDSI.mk (fun _ => 0) (fun _ => 1) (fun _ => 1) 1 1 1 1 1 1 0 0 0 1
    true true true

def sigmaC3w : IER.DSIVar → ℚ := fun _ => 0

theorem claim_C3_witness :
    (∀ c ∈ IER.SinkDSIBlock.constraints mC3w gC3w, c.holds sigmaC3w) ∧
    sigmaC3w (IER.DSIVar.dsm_up 0) ≤ gC3w.capacity_up 0 ∧
    sigmaC3w (IER.DSIVar.dsm_do_shift 0) +
      sigmaC3w (IER.DSIVar.dsm_do_shed 0) ≤ gC3w.capacity_down 0 := by
  have hsat : ∀ c ∈ IER.SinkDSIBlock.constraints mC3w gC3w,
      c.holds sigmaC3w := by
    intro c hc
    fin_cases hc <;>
      norm_num [Constr.holds, Expr.eval, sigmaC3w, gC3w, mC3w, seqMax,
        pymaxQ, List.replicate_succ, List.foldr_cons, List.foldr_nil,
        le_max_iff]
  have h := claim_C3_amended.2.1 mC3w gC3w sigmaC3w 0 hsat (by decide)
  exact ⟨hsat, h.1, h.2⟩

end DRoemof
